import Mathlib

/-!
# Supervisor-mode trap handling of the PKE kernel (kernel/strap.c)

A shallow embedding of `handle_syscall`, `handle_mtimer_trap`,
`handle_user_page_fault`, `rrsched` and `smode_trap_handler`.

* C pointers to processes are indices into a process table, `NULL` is `none`.
* `uint64` values are natural numbers; every operation that can leave the
  range is reduced modulo `WORD`.
* `panic` and a failed `assert` stop the kernel: the handlers return
  `Except Stop KState`, and a `Stop` carries the kernel state at the halt.
* The syscall router `do_syscall` and the scheduler's `schedule` are external
  collaborators without a specified behaviour; they are parameters.
* Constants of the headers are the fields of `kconsts`, a parameter.
* The page-table primitives, the page allocator, the ready queue and the
  declarations of process.h are modelled from the spec; the doc comment of
  each such definition says so.
* The scan of the copy-on-write branch over the parent's heap takes fuel, one
  unit per evaluation of its loop condition.
-/

namespace PKE

/-! ## Data model -/

/-- Modulus of the C type `uint64`. -/
def WORD : Nat := 2 ^ 64

/-- Modelled from the spec: the macro `PGSIZE` of riscv.h (not among the
sources), the "page granularity"; the value is the Sv39 page of 4 KiB. -/
def PGSIZE : Nat := 4096

/-- Constants that strap.c takes from headers which are not among the sources
(riscv.h, sched.h, the memory-protection flags). They are parameters of
the embedding. -/
structure kconsts where
  SSTATUS_SPP : Nat
  SIP_SSIP : Nat
  CAUSE_USER_ECALL : Nat
  CAUSE_MTIMER_S_TRAP : Nat
  CAUSE_STORE_PAGE_FAULT : Nat
  CAUSE_LOAD_PAGE_FAULT : Nat
  PTE_V : Nat
  PTE_R : Nat
  PTE_W : Nat
  PTE_U : Nat
  PTE_C : Nat
  PROT_READ : Nat
  PROT_WRITE : Nat
  TIME_SLICE_LEN : Int

/-- Modelled from the spec: the register bank `riscv_regs` of riscv.h (not among
the sources), "a fixed-size register bank" with the return-value register
`a0` and the syscall-argument registers: `a0` .. `a7` by name, the remaining
registers as a list. -/
structure riscv_regs where
  a0 : Nat
  a1 : Nat
  a2 : Nat
  a3 : Nat
  a4 : Nat
  a5 : Nat
  a6 : Nat
  a7 : Nat
  rest : List Nat
deriving DecidableEq, Repr

/-- Modelled from the spec: `trapframe` of process.h (not among the sources),
the register bank and the saved program counter `epc` of one process. -/
structure trapframe where
  regs : riscv_regs
  epc : Nat
deriving DecidableEq, Repr

/-- Modelled from the spec: the process status of process.h (not among the
sources), "(enum: RUNNING, READY, …)". -/
inductive proc_status where
  | READY
  | RUNNING
  | other (code : Nat)
deriving DecidableEq, Repr

/-- Modelled from the spec: the heap descriptor `user_heap` of process.h (not
among the sources), "(`heap_bottom`, `heap_top` ...)". -/
structure heap_region where
  heap_bottom : Nat
  heap_top : Nat
deriving DecidableEq, Repr

/-- Modelled from the spec: the page table behind the opaque handle
`pagetable_t` (vmm.c is not among the sources). A virtual page number is
sent to the 64-bit entry of its leaf slot, or to `none` when the walk finds
no slot. -/
abbrev pagetable_t := Nat → Option Nat

/-- Modelled from the spec: `process` of process.h (not among the sources), with
the fields that strap.c reads or writes: page table, trapframe, status, tick
counter (taken as an integer), parent (an index into the process table, or
`NULL`) and heap descriptor. -/
structure process where
  pagetable : pagetable_t
  trapframe : trapframe
  status : proc_status
  tick_count : Int
  parent : Option Nat
  user_heap : heap_region

/-- Diagnostics written with `sprint`, one constructor per call site. -/
inductive diag where
  | ticks (n : Nat)
  | handle_page_fault (stval : Nat)
  | unknown_page_fault
  | unexpected_scause (scause : Nat)
  | sepc_stval (sepc stval : Nat)
deriving DecidableEq, Repr

/-- The kernel state the trap handlers work on: the process table, the
global `current`, the static `g_ticks`, the supervisor CSRs, the ready
queue, the free list of the page allocator, physical memory (bytes by
address) and the diagnostic output. -/
structure KState where
  procs : Nat → process
  current : Option Nat
  g_ticks : Nat
  sstatus : Nat
  sepc : Nat
  scause : Nat
  stval : Nat
  sip : Nat
  ready_queue : List Nat
  free_pages : List Nat
  mem : Nat → Nat
  console : List diag

/-- The messages of the `panic` calls and of the failed `assert`. -/
inductive panic_msg where
  | not_from_user_mode
  | assert_current
  | page_fault
  | unexpected_exception
deriving DecidableEq, Repr

/-- Ways a handler does not return: a fatal halt (with the state at the
halt), a dereferenced null pointer, or a loop that is still running when the
fuel is used up. -/
inductive Stop where
  | panic (msg : panic_msg) (s : KState)
  | null_deref (s : KState)
  | out_of_fuel

/-- Write one process of the process table. -/
def set_proc (s : KState) (i : Nat) (p : process) : KState :=
  { s with procs := fun j => if j = i then p else s.procs j }

/-- The call `sprint(...)`: the diagnostic is appended to the output. -/
def sprint (s : KState) (d : diag) : KState :=
  { s with console := s.console ++ [d] }

/-! ## Syscalls -/

/-- The function `handle_syscall` of strap.c, lines 20 to 31. `do_syscall` is the
external router: a call number and seven argument words to one word. -/
def handle_syscall
    (do_syscall : Nat → Nat → Nat → Nat → Nat → Nat → Nat → Nat → Nat)
    (tf : trapframe) : trapframe :=
  let tf1 : trapframe := { tf with epc := (tf.epc + 4) % WORD }
  { tf1 with regs :=
      { tf1.regs with a0 := do_syscall tf1.regs.a0 tf1.regs.a1 tf1.regs.a2 0 0 0 0 0 } }

/-! ## Timer -/

/-- The function `handle_mtimer_trap` of strap.c, lines 39 to 46: print the tick count,
`g_ticks ++` on a `uint64`, `write_csr(sip, 0)`. -/
def handle_mtimer_trap (s : KState) : KState :=
  let s1 := sprint s (diag.ticks s.g_ticks)
  let s2 : KState := { s1 with g_ticks := (s1.g_ticks + 1) % WORD }
  { s2 with sip := 0 }

/-! ## Round-robin scheduling -/

/-- Modelled from the spec: `insert_to_ready_queue` of sched.c (not among the
sources), "ready-queue insertion (FIFO tail)". -/
def insert_to_ready_queue (s : KState) (proc : Nat) : KState :=
  { s with ready_queue := s.ready_queue ++ [proc] }

/-- The function `rrsched` of strap.c, lines 91 to 103. `schedule` is the external
scheduler. -/
def rrsched (k : kconsts) (schedule : KState → KState) (s : KState) :
    Except Stop KState :=
  match s.current with
  | none => .error (.null_deref s)
  | some cur =>
    if (s.procs cur).tick_count + 1 ≥ k.TIME_SLICE_LEN then
      let s1 := set_proc s cur { s.procs cur with tick_count := 0 }
      let s2 := set_proc s1 cur { s1.procs cur with status := proc_status.READY }
      let s3 := insert_to_ready_queue s2 cur
      .ok (schedule s3)
    else
      .ok (set_proc s cur { s.procs cur with tick_count := (s.procs cur).tick_count + 1 })

/-! ## Page tables, the page allocator and memory -/

/-- Modelled from the spec: the macro `ROUNDDOWN` of util/functions.h (not
among the sources), "rounded down to page granularity". -/
def ROUNDDOWN (a b : Nat) : Nat := a / b * b

/-- Modelled from the spec: the macro `PTE2PA` of riscv.h (not among the
sources), the physical page an entry points at: the Sv39 entry keeps ten flag
bits below the page number. -/
def PTE2PA (pte : Nat) : Nat := ((pte >>> 10) <<< 12) % WORD

/-- Modelled from the spec: the macro `PA2PTE` of riscv.h (not among the
sources), the page-number field of the entry for a physical address. -/
def PA2PTE (pa : Nat) : Nat := (pa >>> 12) <<< 10

/-- The value behind a `pte_t *` that `page_walk` returned. -/
def pte_read (pt : pagetable_t) (pte : Nat) : Nat := (pt pte).getD 0

/-- The store through a `pte_t *`. -/
def pte_write (pt : pagetable_t) (pte : Nat) (v : Nat) : pagetable_t :=
  fun i => if i = pte then some v else pt i

/-- Modelled from the spec: `page_walk(pagetable, va, 0)` of vmm.c (not among
the sources), the "page-walk-or-null lookup": a pointer to the entry of the
page of `va` (the pointer is the virtual page number), or `NULL`. -/
def page_walk (pt : pagetable_t) (va : Nat) : Option Nat :=
  if (pt (va / PGSIZE)).isSome then some (va / PGSIZE) else none

/-- Modelled from the spec: `lookup_pa` of vmm.c (not among the sources), the
"virtual→physical lookup": the physical address of `va` under a valid
entry, and 0 when there is none. -/
def lookup_pa (k : kconsts) (pt : pagetable_t) (va : Nat) : Nat :=
  match pt (va / PGSIZE) with
  | some pte => if pte &&& k.PTE_V ≠ 0 then PTE2PA pte + va % PGSIZE else 0
  | none => 0

/-- Modelled from the spec: `prot_to_type` of vmm.c (not among the sources),
the "permission encoding" of a protection: the read and write bits asked
for, and the user bit for a user mapping. -/
def prot_to_type (k : kconsts) (prot : Nat) (user : Nat) : Nat :=
  (if prot &&& k.PROT_READ ≠ 0 then k.PTE_R else 0)
    ||| (if prot &&& k.PROT_WRITE ≠ 0 then k.PTE_W else 0)
    ||| (if user ≠ 0 then k.PTE_U else 0)

/-- Number of pages that the virtual range `[va, va + size)` touches (part of
the model of `map_pages` and `user_vm_unmap`). -/
def npages (va size : Nat) : Nat :=
  if size = 0 then 0 else (va + size - 1) / PGSIZE - va / PGSIZE + 1

/-- Map `n` consecutive pages, from virtual page `vpn` on, to the physical
pages from `pa` on (part of the model of `map_pages`). -/
def map_range (k : kconsts) (perm : Nat) : Nat → Nat → Nat → pagetable_t → pagetable_t
  | 0, _, _, pt => pt
  | n + 1, vpn, pa, pt =>
    map_range k perm n (vpn + 1) (pa + PGSIZE)
      (pte_write pt vpn (PA2PTE pa ||| perm ||| k.PTE_V))

/-- Modelled from the spec: `map_pages` of vmm.c (not among the sources), the
"map ... of a virtual range to a physical page with a permission encoding":
every page of the range gets a valid entry for its physical page with the
permission bits. -/
def map_pages (k : kconsts) (pt : pagetable_t) (va size pa perm : Nat) : pagetable_t :=
  map_range k perm (npages va size) (va / PGSIZE) pa pt

/-- Modelled from the spec: `user_vm_map` of vmm.c (not among the sources),
the mapping primitive for user pages. -/
def user_vm_map (k : kconsts) (pt : pagetable_t) (va size pa perm : Nat) : pagetable_t :=
  map_pages k pt va size pa perm

/-- Unmap `n` consecutive pages from virtual page `vpn` on: the valid bit of
an entry is cleared, its slot stays; with `free` the page goes back to the
allocator (part of the model of `user_vm_unmap`). -/
def unmap_range (k : kconsts) (free : Nat) :
    Nat → Nat → pagetable_t × List Nat → pagetable_t × List Nat
  | 0, _, r => r
  | n + 1, vpn, (pt, fl) =>
    match pt vpn with
    | none => unmap_range k free n (vpn + 1) (pt, fl)
    | some pte =>
      unmap_range k free n (vpn + 1)
        (pte_write pt vpn (pte &&& (WORD - 1 - k.PTE_V)),
         if free ≠ 0 ∧ pte &&& k.PTE_V ≠ 0 then PTE2PA pte :: fl else fl)

/-- Modelled from the spec: `user_vm_unmap` of vmm.c (not among the sources),
the "unmap of a virtual range". The slot of an unmapped page stays in the
table (strap.c line 74 walks to it right after the unmap and line 75 writes
through the pointer). The second component is the allocator's free list. -/
def user_vm_unmap (k : kconsts) (pt : pagetable_t) (va size free : Nat)
    (fl : List Nat) : pagetable_t × List Nat :=
  unmap_range k free (npages va size) (va / PGSIZE) (pt, fl)

/-- Fill `n` bytes from `dst` on with zero (part of the model of
`alloc_page`). -/
def zero_fill (mem : Nat → Nat) (dst n : Nat) : Nat → Nat :=
  fun a => if dst ≤ a ∧ a < dst + n then 0 else mem a

/-- Modelled from the spec: `alloc_page` of pmm.c (not among the sources),
"returns one zeroed physical page or a failure sentinel": the head of the
free list, zero filled, or the null pointer when the list is empty. -/
def alloc_page (s : KState) : Nat × KState :=
  match s.free_pages with
  | [] => (0, s)
  | p :: fl => (p, { s with free_pages := fl, mem := zero_fill s.mem p PGSIZE })

/-- Modelled from the spec: `memcpy` of the kernel's string library (not among
the sources), the copy "byte-for-byte" of `n` bytes from `src` to `dst` in
physical memory (the two regions are taken not to overlap). -/
def memcpy (mem : Nat → Nat) (dst src n : Nat) : Nat → Nat :=
  fun a => if dst ≤ a ∧ a < dst + n then mem (src + (a - dst)) else mem a

/-- Write the page table of one process. -/
def set_pagetable (s : KState) (i : Nat) (pt : pagetable_t) : KState :=
  set_proc s i { s.procs i with pagetable := pt }

/-! ## Page faults -/

/-- The value that strap.c line 75 stores:
`(*child_pte | (~PTE_C)) & (PTE_W | PTE_R)` on 64-bit words. -/
def cow_pte (k : kconsts) (x : Nat) : Nat :=
  (x ||| ((WORD - 1) ^^^ k.PTE_C)) &&& (k.PTE_W ||| k.PTE_R)

/-- The first four statements of the body of the `if` in the copy-on-write
scan, strap.c lines 72 to 75, for the heap page `heap_block` of the current
process `cur`: unmap the page, allocate a page (the result is not checked),
walk to the entry and store `cow_pte` of its value through the pointer. The
result is `child_pa` and the state after the store of line 75. -/
def cow_reset_pte (k : kconsts) (cur heap_block : Nat) (s : KState) :
    Except Stop (Nat × KState) :=
  let r := user_vm_unmap k (s.procs cur).pagetable heap_block PGSIZE 0 s.free_pages
  let s1 : KState := { set_pagetable s cur r.1 with free_pages := r.2 }
  let a := alloc_page s1
  let child_pa := a.1
  let s2 := a.2
  match page_walk (s2.procs cur).pagetable heap_block with
  | none => .error (.null_deref s2)
  | some child_pte =>
    .ok (child_pa, set_pagetable s2 cur
      (pte_write (s2.procs cur).pagetable child_pte
        (cow_pte k (pte_read (s2.procs cur).pagetable child_pte))))

/-- The body of the `if` in the copy-on-write scan, strap.c lines 72 to 77, for
the heap page `heap_block` of the current process `cur`. The `memcpy` of
line 77 dereferences both of its pointers: a null `child_pa` (the unchecked
result of `alloc_page`) or a null source (the parent has no translation for
`heap_block`) stops the kernel there. -/
def cow_privatize (k : kconsts) (cur heap_block : Nat) (s : KState) :
    Except Stop KState :=
  match cow_reset_pte k cur heap_block s with
  | .error e => .error e
  | .ok (child_pa, s3) =>
    let s4 := set_pagetable s3 cur
      (user_vm_map k (s3.procs cur).pagetable heap_block PGSIZE child_pa
        (prot_to_type k (k.PROT_WRITE ||| k.PROT_READ) 1))
    match (s4.procs cur).parent with
    | none => .error (.null_deref s4)
    | some par =>
      let src := lookup_pa k (s4.procs par).pagetable heap_block
      if child_pa = 0 ∨ src = 0 then .error (.null_deref s4)
      else .ok { s4 with mem := memcpy s4.mem child_pa src PGSIZE }

/-- The `for` loop of strap.c lines 69 to 79, from `heap_block` on; one unit of
fuel per evaluation of the loop condition. -/
def cow_scan (k : kconsts) (pa_t : Nat) : Nat → Nat → KState → Except Stop KState
  | 0, _, _ => .error .out_of_fuel
  | fuel + 1, heap_block, s =>
    match s.current with
    | none => .error (.null_deref s)
    | some cur =>
      match (s.procs cur).parent with
      | none => .error (.null_deref s)
      | some par =>
        if heap_block < (s.procs par).user_heap.heap_top then
          let heap_block_pa := lookup_pa k (s.procs cur).pagetable heap_block
          if heap_block_pa ≥ pa_t ∧ heap_block_pa < (pa_t + PGSIZE) % WORD then
            match cow_privatize k cur heap_block s with
            | .error e => .error e
            | .ok s1 => cow_scan k pa_t fuel ((heap_block + PGSIZE) % WORD) s1
          else cow_scan k pa_t fuel ((heap_block + PGSIZE) % WORD) s
        else .ok s

/-- The function `handle_user_page_fault` of strap.c, lines 53 to 86. `fuel` bounds the
evaluations of the scan's loop condition. -/
def handle_user_page_fault (k : kconsts) (fuel : Nat) (mcause _sepc stval : Nat)
    (s : KState) : Except Stop KState :=
  let s0 := sprint s (diag.handle_page_fault stval)
  if mcause = k.CAUSE_STORE_PAGE_FAULT then
    match s0.current with
    | none => .error (.null_deref s0)
    | some cur =>
      match page_walk (s0.procs cur).pagetable stval with
      | none =>
        let a := alloc_page s0
        if a.1 = 0 then .error (.panic .page_fault a.2)
        else
          .ok (set_pagetable a.2 cur
            (map_pages k (a.2.procs cur).pagetable (ROUNDDOWN stval PGSIZE) PGSIZE a.1
              (prot_to_type k (k.PROT_READ ||| k.PROT_WRITE) 1)))
      | some pte =>
        if pte_read (s0.procs cur).pagetable pte &&& k.PTE_C ≠ 0 then
          let pa_t := PTE2PA (pte_read (s0.procs cur).pagetable pte)
          match (s0.procs cur).parent with
          | none => .error (.null_deref s0)
          | some par => cow_scan k pa_t fuel (s0.procs par).user_heap.heap_bottom s0
        else .ok s0
  else
    .ok (sprint s0 diag.unknown_page_fault)

/-! ## The trap entry point -/

/-- The function `smode_trap_handler` of strap.c, lines 109 to 147. The result is the state
on which `switch_to(current)` leaves for user mode, or the halt. -/
def smode_trap_handler (k : kconsts)
    (do_syscall : Nat → Nat → Nat → Nat → Nat → Nat → Nat → Nat → Nat)
    (schedule : KState → KState) (fuel : Nat) (s : KState) : Except Stop KState :=
  if s.sstatus &&& k.SSTATUS_SPP ≠ 0 then .error (.panic .not_from_user_mode s)
  else
    match s.current with
    | none => .error (.panic .assert_current s)
    | some cur =>
      let s1 := set_proc s cur
        { s.procs cur with trapframe := { (s.procs cur).trapframe with epc := s.sepc } }
      let cause := s1.scause
      if cause = k.CAUSE_USER_ECALL then
        .ok (set_proc s1 cur
          { s1.procs cur with trapframe := handle_syscall do_syscall (s1.procs cur).trapframe })
      else if cause = k.CAUSE_MTIMER_S_TRAP then
        rrsched k schedule (handle_mtimer_trap s1)
      else if cause = k.CAUSE_STORE_PAGE_FAULT ∨ cause = k.CAUSE_LOAD_PAGE_FAULT then
        handle_user_page_fault k fuel cause s1.sepc s1.stval s1
      else
        let s2 := sprint s1 (diag.unexpected_scause s1.scause)
        let s3 := sprint s2 (diag.sepc_stval s2.sepc s2.stval)
        .error (.panic .unexpected_exception s3)

/-! ## Assumptions on the constants -/

/-- One of the ten flag bits below the page number of a page-table entry. -/
def flag_bit (m : Nat) : Prop := ∃ i, i < 10 ∧ m = 2 ^ i

/-- What the page fault proofs take for granted about the constants: the
valid, read, write, user and copy-on-write flags are single flag bits of an
entry, the copy-on-write flag is none of the other four, and the two protection
flags are not zero. -/
structure pte_consts_ok (k : kconsts) : Prop where
  flag_V : flag_bit k.PTE_V
  flag_R : flag_bit k.PTE_R
  flag_W : flag_bit k.PTE_W
  flag_U : flag_bit k.PTE_U
  flag_C : flag_bit k.PTE_C
  C_ne_V : k.PTE_C ≠ k.PTE_V
  C_ne_R : k.PTE_C ≠ k.PTE_R
  C_ne_W : k.PTE_C ≠ k.PTE_W
  C_ne_U : k.PTE_C ≠ k.PTE_U
  prot_read : k.PROT_READ ≠ 0
  prot_write : k.PROT_WRITE ≠ 0

/-! ## The copy-on-write scan: what the proofs speak of -/

/-- The entry that `map_pages` writes for a user read+write mapping of the
physical page `pa`. -/
def rw_entry (k : kconsts) (pa : Nat) : Nat :=
  PA2PTE pa ||| (k.PTE_R ||| k.PTE_W ||| k.PTE_U) ||| k.PTE_V

/-- Number of `alloc_page` calls of the copy-on-write scan: the heap pages from
`heap_block` on, below `top`, that the page table `pt` translates into the
page at `pa_t` (at most `n` loop rounds are counted). -/
def cow_allocs (k : kconsts) (pt : pagetable_t) (pa_t top : Nat) : Nat → Nat → Nat
  | 0, _ => 0
  | n + 1, heap_block =>
    if heap_block < top then
      (if lookup_pa k pt heap_block ≥ pa_t ∧ lookup_pa k pt heap_block < (pa_t + PGSIZE) % WORD
        then 1 else 0) + cow_allocs k pt pa_t top n (heap_block + PGSIZE)
    else 0

/-- Invariant of the copy-on-write scan of the child `c` of `par`, started in
state `s` for the faulting page `V` backed by `pa_sh`, when the scan stands
before `heap_block` in state `t` and has taken the pages `used` from the free
list `fl`: only the child's process changed; memory changed only inside the
pages taken; the child's entries from `heap_block` on are the old ones; and
once `V` is passed, its entry is a read+write entry for a page taken from the
free list that holds a copy of the shared page. -/
structure cow_inv (k : kconsts) (s : KState) (c par V pa_sh : Nat) (fl : List Nat)
    (heap_block : Nat) (t : KState) (used : List Nat) : Prop where
  cur : t.current = some c
  parent : (t.procs c).parent = some par
  others : ∀ j, j ≠ c → t.procs j = s.procs j
  split : fl = used ++ t.free_pages
  frame : ∀ a, (∀ q ∈ used, ¬ (q ≤ a ∧ a < q + PGSIZE)) → t.mem a = s.mem a
  table : ∀ vpn, heap_block / PGSIZE ≤ vpn →
    (t.procs c).pagetable vpn = (s.procs c).pagetable vpn
  done : V < heap_block → ∃ p, p ∈ used ∧
    (t.procs c).pagetable (V / PGSIZE) = some (rw_entry k p) ∧
    ∀ i, i < PGSIZE → t.mem (p + i) = s.mem (pa_sh + i)

/-! ## A sequence of traps -/

/-- What a trap delivers before `smode_trap_handler` runs: the supervisor CSRs
set by the hardware and the user registers of the interrupted process. -/
structure trap_entry where
  sstatus : Nat
  sepc : Nat
  scause : Nat
  stval : Nat
  regs : riscv_regs

/-- Modelled from the spec: the trap vector of smode_trap.S (not among the
sources), which "calls [the handler] after saving minimal hardware state": the
CSRs hold the values of the trap and the registers of the interrupted process
are in the trapframe of `current`. -/
def deliver (e : trap_entry) (s : KState) : KState :=
  let s1 : KState :=
    { s with sstatus := e.sstatus, sepc := e.sepc, scause := e.scause, stval := e.stval }
  match s1.current with
  | none => s1
  | some cur =>
    set_proc s1 cur
      { s1.procs cur with trapframe := { (s1.procs cur).trapframe with regs := e.regs } }

/-- Consecutive traps: each one is delivered to the state the handler of the
one before resumed. -/
def run_traps (k : kconsts)
    (do_syscall : Nat → Nat → Nat → Nat → Nat → Nat → Nat → Nat → Nat)
    (schedule : KState → KState) (fuel : Nat) : List trap_entry → KState → Except Stop KState
  | [], s => .ok s
  | e :: es, s =>
    match smode_trap_handler k do_syscall schedule fuel (deliver e s) with
    | .error x => .error x
    | .ok s1 => run_traps k do_syscall schedule fuel es s1

/-! ## Concrete inputs -/

/-- A concrete choice of the constants: the RISC-V encodings of the status bit,
the pending bit, the trap causes and the entry flags, the copy-on-write flag in
the first software bit of an entry, and the slice length 5 of the spec's
scenario. -/
def rv64 : kconsts where
  SSTATUS_SPP := 0x100
  SIP_SSIP := 0x2
  CAUSE_USER_ECALL := 0x8
  CAUSE_MTIMER_S_TRAP := 0x8000000000000001
  CAUSE_STORE_PAGE_FAULT := 0xf
  CAUSE_LOAD_PAGE_FAULT := 0xd
  PTE_V := 0x1
  PTE_R := 0x2
  PTE_W := 0x4
  PTE_U := 0x10
  PTE_C := 0x100
  PROT_READ := 0x1
  PROT_WRITE := 0x2
  TIME_SLICE_LEN := 5

/-- A register bank with distinct values in the syscall registers. -/
def regs0 : riscv_regs :=
  { a0 := 64, a1 := 1, a2 := 2, a3 := 3, a4 := 4, a5 := 5, a6 := 6, a7 := 7, rest := [] }

/-- The bank `regs0` with other values in `a3` and `a4`. -/
def regs1 : riscv_regs := { regs0 with a3 := 30, a4 := 40 }

/-- A trapframe over `regs0`. -/
def tf0 : trapframe := { regs := regs0, epc := 0x10000 }

/-- A router that adds up the call number and all seven arguments. -/
def router_sum : Nat → Nat → Nat → Nat → Nat → Nat → Nat → Nat → Nat :=
  fun n x1 x2 x3 x4 x5 x6 x7 => n + x1 + x2 + x3 + x4 + x5 + x6 + x7

/-- A router that returns its third argument. -/
def router_third : Nat → Nat → Nat → Nat → Nat → Nat → Nat → Nat → Nat :=
  fun _ _ _ x3 _ _ _ _ => x3

/-- The page table without any slot. -/
def pt_empty : pagetable_t := fun _ => none

/-- A running process without parent, heap or mappings. -/
def proc0 : process :=
  { pagetable := pt_empty, trapframe := tf0, status := proc_status.RUNNING,
    tick_count := 0, parent := none, user_heap := { heap_bottom := 0, heap_top := 0 } }

/-- A kernel state whose current process is process 0, trapped from user mode
at `sepc = 0x20000` with the cause given. -/
def st_trap (scause : Nat) : KState :=
  { procs := fun _ => proc0, current := some 0, g_ticks := 7, sstatus := 0, sepc := 0x20000,
    scause := scause, stval := 0x7000, sip := 0x2, ready_queue := [3], free_pages := [0x80400000],
    mem := fun _ => 0, console := [] }

/-- A timer interrupt taken in user mode at `sepc`. -/
def timer_entry (sepc : Nat) : trap_entry :=
  { sstatus := 0, sepc := sepc, scause := 0x8000000000000001, stval := 0, regs := regs1 }


/-- A page table of two heap pages: the virtual pages `0x400` and `0x401` are
backed by the physical pages `0x80001000` and `0x80002000`, valid, readable,
user accessible and copy-on-write. -/
def pt_shared : pagetable_t :=
  fun vpn => if vpn = 0x400 then some 0x20000513
    else if vpn = 0x401 then some 0x20000913 else none

/-- A parent (process 0) with the heap `[0x400000, 0x402000)` and its child
(process 1, current), which share the two heap pages copy-on-write; the
allocator holds the pages in `free`, and the byte at address `a` is
`a % 251`. -/
def st_cow (free : List Nat) : KState :=
  { procs := fun j =>
      if j = 0 then
        { proc0 with pagetable := pt_shared,
                     user_heap := { heap_bottom := 0x400000, heap_top := 0x402000 } }
      else
        { proc0 with pagetable := pt_shared, parent := some 0,
                     user_heap := { heap_bottom := 0x400000, heap_top := 0x402000 } },
    current := some 1, g_ticks := 0, sstatus := 0, sepc := 0x20000, scause := 0xf,
    stval := 0x400008, sip := 0, ready_queue := [], free_pages := free,
    mem := fun a => a % 251, console := [] }

/-! # Theorems -/

/-! ## The process table -/

@[simp] theorem set_proc_same (s : KState) (i : Nat) (p : process) :
    (set_proc s i p).procs i = p := by
  simp [set_proc]

@[simp] theorem set_proc_other (s : KState) (i j : Nat) (p : process) (h : j ≠ i) :
    (set_proc s i p).procs j = s.procs j := by
  simp [set_proc, h]

@[simp] theorem set_proc_twice (s : KState) (i : Nat) (p q : process) :
    set_proc (set_proc s i p) i q = set_proc s i q := by
  simp only [set_proc]
  congr 1
  funext j
  by_cases h : j = i <;> simp [h]

@[simp] theorem set_proc_current (s : KState) (i : Nat) (p : process) :
    (set_proc s i p).current = s.current := rfl

@[simp] theorem set_proc_ready_queue (s : KState) (i : Nat) (p : process) :
    (set_proc s i p).ready_queue = s.ready_queue := rfl

@[simp] theorem set_proc_g_ticks (s : KState) (i : Nat) (p : process) :
    (set_proc s i p).g_ticks = s.g_ticks := rfl

@[simp] theorem set_proc_free_pages (s : KState) (i : Nat) (p : process) :
    (set_proc s i p).free_pages = s.free_pages := rfl

@[simp] theorem set_proc_mem (s : KState) (i : Nat) (p : process) :
    (set_proc s i p).mem = s.mem := rfl

@[simp] theorem set_proc_console (s : KState) (i : Nat) (p : process) :
    (set_proc s i p).console = s.console := rfl

@[simp] theorem set_proc_sepc (s : KState) (i : Nat) (p : process) :
    (set_proc s i p).sepc = s.sepc := rfl

@[simp] theorem set_proc_scause (s : KState) (i : Nat) (p : process) :
    (set_proc s i p).scause = s.scause := rfl

@[simp] theorem set_proc_stval (s : KState) (i : Nat) (p : process) :
    (set_proc s i p).stval = s.stval := rfl

@[simp] theorem set_proc_sstatus (s : KState) (i : Nat) (p : process) :
    (set_proc s i p).sstatus = s.sstatus := rfl

@[simp] theorem set_proc_sip (s : KState) (i : Nat) (p : process) :
    (set_proc s i p).sip = s.sip := rfl

@[simp] theorem sprint_procs (s : KState) (d : diag) : (sprint s d).procs = s.procs := rfl

@[simp] theorem sprint_current (s : KState) (d : diag) : (sprint s d).current = s.current := rfl

@[simp] theorem sprint_g_ticks (s : KState) (d : diag) : (sprint s d).g_ticks = s.g_ticks := rfl

@[simp] theorem sprint_ready_queue (s : KState) (d : diag) :
    (sprint s d).ready_queue = s.ready_queue := rfl

@[simp] theorem sprint_free_pages (s : KState) (d : diag) :
    (sprint s d).free_pages = s.free_pages := rfl

@[simp] theorem sprint_mem (s : KState) (d : diag) : (sprint s d).mem = s.mem := rfl

@[simp] theorem sprint_sepc (s : KState) (d : diag) : (sprint s d).sepc = s.sepc := rfl

@[simp] theorem sprint_scause (s : KState) (d : diag) : (sprint s d).scause = s.scause := rfl

@[simp] theorem sprint_stval (s : KState) (d : diag) : (sprint s d).stval = s.stval := rfl

@[simp] theorem sprint_console (s : KState) (d : diag) :
    (sprint s d).console = s.console ++ [d] := rfl

/-! ## Syscalls -/

/-- What `handle_syscall` does to a trapframe: `epc` moves on by 4 modulo
`2^64`, `a0` receives the router's word, nothing else changes. -/
theorem handle_syscall_eq
    (do_syscall : Nat → Nat → Nat → Nat → Nat → Nat → Nat → Nat → Nat) (tf : trapframe) :
    handle_syscall do_syscall tf =
      { regs := { tf.regs with
                  a0 := do_syscall tf.regs.a0 tf.regs.a1 tf.regs.a2 0 0 0 0 0 },
        epc := (tf.epc + 4) % WORD } := rfl

/-- The syscall path of `smode_trap_handler`, as one state update. -/
theorem smode_trap_handler_ecall (k : kconsts)
    (do_syscall : Nat → Nat → Nat → Nat → Nat → Nat → Nat → Nat → Nat)
    (schedule : KState → KState) (fuel : Nat) (s : KState) (P : Nat)
    (hmode : s.sstatus &&& k.SSTATUS_SPP = 0) (hcur : s.current = some P)
    (hcause : s.scause = k.CAUSE_USER_ECALL) :
    smode_trap_handler k do_syscall schedule fuel s =
      .ok (set_proc s P { s.procs P with
        trapframe := handle_syscall do_syscall
          { (s.procs P).trapframe with epc := s.sepc } }) := by
  simp [smode_trap_handler, hmode, hcur, hcause]

/-- C1: for a trap from user mode with cause `CAUSE_USER_ECALL` and current
process `P`, `smode_trap_handler` returns, and in the state it resumes the
trapframe of `P` has `epc` equal to the `sepc` read at trap entry plus 4 modulo
`2^64`, `a0` equal to the word `do_syscall` returned for the dispatched call,
and every other register as before; `handle_syscall` itself changes no
register but `a0`. -/
theorem syscall_trap_advances_epc_and_sets_a0 (k : kconsts)
    (do_syscall : Nat → Nat → Nat → Nat → Nat → Nat → Nat → Nat → Nat)
    (schedule : KState → KState) (fuel : Nat) (s : KState) (P : Nat)
    (hmode : s.sstatus &&& k.SSTATUS_SPP = 0) (hcur : s.current = some P)
    (hcause : s.scause = k.CAUSE_USER_ECALL) :
    ∃ s1, smode_trap_handler k do_syscall schedule fuel s = .ok s1 ∧
      (s1.procs P).trapframe.epc = (s.sepc + 4) % WORD ∧
      (s1.procs P).trapframe.regs.a0 =
        do_syscall (s.procs P).trapframe.regs.a0 (s.procs P).trapframe.regs.a1
          (s.procs P).trapframe.regs.a2 0 0 0 0 0 ∧
      (s1.procs P).trapframe.regs =
        { (s.procs P).trapframe.regs with a0 := (s1.procs P).trapframe.regs.a0 } ∧
      ∀ tf : trapframe, (handle_syscall do_syscall tf).regs =
        { tf.regs with a0 := (handle_syscall do_syscall tf).regs.a0 } := by
  refine ⟨_, smode_trap_handler_ecall k do_syscall schedule fuel s P hmode hcur hcause,
    ?_, ?_, ?_, fun tf => rfl⟩
  · simp [handle_syscall]
  · simp [handle_syscall]
  · simp [handle_syscall]

/-- C1, at a concrete trap: `sepc = 0x20000`, the router adds up its eight
words, of which the handler passes `64, 1, 2` and five zeros. -/
theorem syscall_trap_advances_epc_and_sets_a0_witness :
    ∃ s1, smode_trap_handler rv64 router_sum id 0 (st_trap 8) = .ok s1 ∧
      (s1.procs 0).trapframe.epc = 0x20004 ∧ (s1.procs 0).trapframe.regs.a0 = 67 := by
  obtain ⟨s1, h, he, ha, _⟩ :=
    syscall_trap_advances_epc_and_sets_a0 rv64 router_sum id 0 (st_trap 8) 0
      (by decide) rfl rfl
  exact ⟨s1, h, by rw [he]; decide, by rw [ha]; decide⟩

/-- C7, as the code has it: `handle_syscall` calls the router with the call
number from `a0`, the two argument registers `a1` and `a2`, and zero in each of
the five remaining slots; trapframes that agree on `a0`, `a1` and `a2` (so
also two that differ only in `a3` or `a4`) lead to the same call and the same
word in `a0`. -/
theorem handle_syscall_forwards_a0_a1_a2
    (do_syscall : Nat → Nat → Nat → Nat → Nat → Nat → Nat → Nat → Nat) :
    (∀ tf : trapframe, (handle_syscall do_syscall tf).regs.a0 =
        do_syscall tf.regs.a0 tf.regs.a1 tf.regs.a2 0 0 0 0 0) ∧
    (∀ tf1 tf2 : trapframe, tf1.regs.a0 = tf2.regs.a0 → tf1.regs.a1 = tf2.regs.a1 →
        tf1.regs.a2 = tf2.regs.a2 →
        (handle_syscall do_syscall tf1).regs.a0 = (handle_syscall do_syscall tf2).regs.a0) := by
  refine ⟨fun tf => rfl, fun tf1 tf2 h0 h1 h2 => ?_⟩
  simp [handle_syscall, h0, h1, h2]

/-- C7 fails as stated: for the router that returns its third argument and a
trapframe with `a3 = 3`, the word the handler stores is 0, not the 3 that a
call with `a1 .. a4` forwarded would return. -/
theorem handle_syscall_drops_a3_a4 :
    ¬ (∀ (do_syscall : Nat → Nat → Nat → Nat → Nat → Nat → Nat → Nat → Nat) (tf : trapframe),
        (handle_syscall do_syscall tf).regs.a0 =
          do_syscall tf.regs.a0 tf.regs.a1 tf.regs.a2 tf.regs.a3 tf.regs.a4 0 0 0) := by
  intro h
  exact absurd (h router_third tf0) (by decide)

/-! ## Timer -/

/-- C6, as the code has it: `handle_mtimer_trap` leaves `g_ticks` at its old
value plus one modulo `2^64` (so exactly one greater, and strictly greater,
whenever the old value is below `2^64 - 1`), and leaves `sip` at zero, so the
supervisor timer pending bit is clear. -/
theorem handle_mtimer_trap_ticks (k : kconsts) (s : KState) :
    (handle_mtimer_trap s).g_ticks = (s.g_ticks + 1) % WORD ∧
    (s.g_ticks < WORD - 1 → (handle_mtimer_trap s).g_ticks = s.g_ticks + 1 ∧
        s.g_ticks < (handle_mtimer_trap s).g_ticks) ∧
    (handle_mtimer_trap s).sip = 0 ∧
    (handle_mtimer_trap s).sip &&& k.SIP_SSIP = 0 := by
  refine ⟨rfl, fun h => ?_, rfl, ?_⟩
  · have h1 : (handle_mtimer_trap s).g_ticks = (s.g_ticks + 1) % WORD := rfl
    have h2 : s.g_ticks + 1 < WORD := by simp only [WORD] at h ⊢; omega
    rw [h1, Nat.mod_eq_of_lt h2]
    exact ⟨rfl, Nat.lt_succ_self _⟩
  · show 0 &&& k.SIP_SSIP = 0
    simp

/-- C6 fails as stated: with `g_ticks` at `2^64 - 1` the increment wraps, and
the counter is 0 after the handler, not one greater than before. -/
theorem handle_mtimer_trap_wraps :
    (handle_mtimer_trap { st_trap 0x8000000000000001 with g_ticks := 2 ^ 64 - 1 }).g_ticks = 0 ∧
    ¬ ((2 ^ 64 - 1 : Nat) <
        (handle_mtimer_trap { st_trap 0x8000000000000001 with g_ticks := 2 ^ 64 - 1 }).g_ticks) := by
  constructor
  · decide
  · decide

/-! ## Round-robin scheduling -/

/-- The slice-exhausted branch of `rrsched`, as one state update followed by the
scheduler. -/
theorem rrsched_expired (k : kconsts) (schedule : KState → KState) (s : KState) (P : Nat)
    (hcur : s.current = some P) (h : (s.procs P).tick_count + 1 ≥ k.TIME_SLICE_LEN) :
    rrsched k schedule s =
      .ok (schedule
        { set_proc s P { s.procs P with tick_count := 0, status := proc_status.READY } with
          ready_queue := s.ready_queue ++ [P] }) := by
  simp [rrsched, hcur, h, insert_to_ready_queue]

/-- The other branch of `rrsched`: the tick counter goes up by one. -/
theorem rrsched_within (k : kconsts) (schedule : KState → KState) (s : KState) (P : Nat)
    (hcur : s.current = some P) (h : ¬ (s.procs P).tick_count + 1 ≥ k.TIME_SLICE_LEN) :
    rrsched k schedule s =
      .ok (set_proc s P { s.procs P with tick_count := (s.procs P).tick_count + 1 }) := by
  simp only [rrsched, hcur, h]
  simp

/-- C2: one call of `rrsched` for the current process `P`. If
`tick_count + 1 >= TIME_SLICE_LEN`, the result is `schedule`, applied once, on
the state in which `P` has `tick_count = 0` and status `READY` and the ready
queue is the old one with `P` appended at its tail (one more occurrence of `P`
than before). Otherwise the result is the state in which `tick_count` is
exactly one greater, whatever `schedule` is; status and ready queue are as
before. -/
theorem rrsched_spec (k : kconsts) (schedule : KState → KState) (s : KState) (P : Nat)
    (hcur : s.current = some P) :
    ((s.procs P).tick_count + 1 ≥ k.TIME_SLICE_LEN →
      ∃ s1, rrsched k schedule s = .ok (schedule s1) ∧
        (s1.procs P).tick_count = 0 ∧ (s1.procs P).status = proc_status.READY ∧
        s1.ready_queue = s.ready_queue ++ [P] ∧
        s1.ready_queue.count P = s.ready_queue.count P + 1) ∧
    (¬ (s.procs P).tick_count + 1 ≥ k.TIME_SLICE_LEN →
      ∃ s1, (∀ sch : KState → KState, rrsched k sch s = .ok s1) ∧
        (s1.procs P).tick_count = (s.procs P).tick_count + 1 ∧
        (s1.procs P).status = (s.procs P).status ∧
        s1.ready_queue = s.ready_queue) := by
  constructor
  · intro h
    refine ⟨_, rrsched_expired k schedule s P hcur h, ?_, ?_, rfl, ?_⟩
    · simp
    · simp
    · simp
  · intro h
    refine ⟨_, fun sch => rrsched_within k sch s P hcur h, ?_, ?_, rfl⟩
    · simp
    · simp

/-- C2, at concrete states with slice length 5: at `tick_count = 4` the process
is set `READY` with `tick_count = 0` and enqueued behind process 3; at
`tick_count = 0` the counter becomes 1 and the queue stays `[3]`. -/
theorem rrsched_spec_witness :
    (∃ s1, rrsched rv64 id (set_proc (st_trap 0) 0 { proc0 with tick_count := 4 }) = .ok s1 ∧
      (s1.procs 0).tick_count = 0 ∧ (s1.procs 0).status = proc_status.READY ∧
      s1.ready_queue = [3, 0]) ∧
    (∃ s1, rrsched rv64 id (st_trap 0) = .ok s1 ∧ (s1.procs 0).tick_count = 1 ∧
      (s1.procs 0).status = proc_status.RUNNING ∧ s1.ready_queue = [3]) := by
  constructor
  · obtain ⟨s1, h, ht, hs, hq, _⟩ :=
      (rrsched_spec rv64 id (set_proc (st_trap 0) 0 { proc0 with tick_count := 4 }) 0 rfl).1
        (by decide)
    exact ⟨s1, h, ht, hs, hq⟩
  · obtain ⟨s1, h, ht, hs, hq⟩ := (rrsched_spec rv64 id (st_trap 0) 0 rfl).2 (by decide)
    exact ⟨s1, h id, by rw [ht]; rfl, by rw [hs]; rfl, hq⟩

/-! ## Timer traps and the time slice -/

@[simp] theorem handle_mtimer_trap_procs (s : KState) :
    (handle_mtimer_trap s).procs = s.procs := rfl

@[simp] theorem handle_mtimer_trap_current (s : KState) :
    (handle_mtimer_trap s).current = s.current := rfl

@[simp] theorem handle_mtimer_trap_ready_queue (s : KState) :
    (handle_mtimer_trap s).ready_queue = s.ready_queue := rfl

/-- The timer path of `smode_trap_handler`: the tick handler, then `rrsched`. -/
theorem smode_trap_handler_timer (k : kconsts)
    (do_syscall : Nat → Nat → Nat → Nat → Nat → Nat → Nat → Nat → Nat)
    (schedule : KState → KState) (fuel : Nat) (s : KState) (P : Nat)
    (hdist : k.CAUSE_MTIMER_S_TRAP ≠ k.CAUSE_USER_ECALL)
    (hmode : s.sstatus &&& k.SSTATUS_SPP = 0) (hcur : s.current = some P)
    (hcause : s.scause = k.CAUSE_MTIMER_S_TRAP) :
    smode_trap_handler k do_syscall schedule fuel s =
      rrsched k schedule (handle_mtimer_trap (set_proc s P { s.procs P with
        trapframe := { (s.procs P).trapframe with epc := s.sepc } })) := by
  simp [smode_trap_handler, hmode, hcur, hcause, hdist]

/-- One timer trap, delivered to a state whose current process `P` has not used
up its slice: the handler returns, `P` is still current, its status and the
ready queue are unchanged, its tick counter is one greater. -/
theorem timer_trap_within_slice (k : kconsts)
    (do_syscall : Nat → Nat → Nat → Nat → Nat → Nat → Nat → Nat → Nat)
    (schedule : KState → KState) (fuel : Nat) (s : KState) (P : Nat) (e : trap_entry)
    (hdist : k.CAUSE_MTIMER_S_TRAP ≠ k.CAUSE_USER_ECALL)
    (hcur : s.current = some P)
    (he : e.scause = k.CAUSE_MTIMER_S_TRAP ∧ e.sstatus &&& k.SSTATUS_SPP = 0)
    (h : (s.procs P).tick_count + 1 < k.TIME_SLICE_LEN) :
    ∃ s1, smode_trap_handler k do_syscall schedule fuel (deliver e s) = .ok s1 ∧
      s1.current = some P ∧ (s1.procs P).status = (s.procs P).status ∧
      (s1.procs P).tick_count = (s.procs P).tick_count + 1 ∧
      s1.ready_queue = s.ready_queue := by
  have hd_cur : (deliver e s).current = some P := by simp [deliver, hcur]
  have hd_mode : (deliver e s).sstatus &&& k.SSTATUS_SPP = 0 := by
    simp [deliver, hcur, he.2]
  have hd_cause : (deliver e s).scause = k.CAUSE_MTIMER_S_TRAP := by
    simp [deliver, hcur, he.1]
  have hd_tick : ((deliver e s).procs P).tick_count = (s.procs P).tick_count := by
    simp [deliver, hcur]
  have hd_status : ((deliver e s).procs P).status = (s.procs P).status := by
    simp [deliver, hcur]
  have hd_queue : (deliver e s).ready_queue = s.ready_queue := by
    simp [deliver, hcur]
  rw [smode_trap_handler_timer k do_syscall schedule fuel _ P hdist hd_mode hd_cur hd_cause]
  rw [rrsched_within k schedule _ P (by simp [hd_cur]) (by simp [hd_tick]; omega)]
  refine ⟨_, rfl, ?_, ?_, ?_, ?_⟩
  · simp [hd_cur]
  · simp [hd_status]
  · simp [hd_tick]
  · simp [hd_queue]

/-- The timer trap that uses up the slice: the handler hands to `schedule`,
once, the state in which `P` is `READY` with `tick_count = 0` at the tail of
the ready queue. -/
theorem timer_trap_end_of_slice (k : kconsts)
    (do_syscall : Nat → Nat → Nat → Nat → Nat → Nat → Nat → Nat → Nat)
    (schedule : KState → KState) (fuel : Nat) (s : KState) (P : Nat) (e : trap_entry)
    (hdist : k.CAUSE_MTIMER_S_TRAP ≠ k.CAUSE_USER_ECALL)
    (hcur : s.current = some P)
    (he : e.scause = k.CAUSE_MTIMER_S_TRAP ∧ e.sstatus &&& k.SSTATUS_SPP = 0)
    (h : (s.procs P).tick_count + 1 ≥ k.TIME_SLICE_LEN) :
    ∃ s2, smode_trap_handler k do_syscall schedule fuel (deliver e s) = .ok (schedule s2) ∧
      (s2.procs P).status = proc_status.READY ∧ (s2.procs P).tick_count = 0 ∧
      s2.ready_queue = s.ready_queue ++ [P] := by
  have hd_cur : (deliver e s).current = some P := by simp [deliver, hcur]
  have hd_mode : (deliver e s).sstatus &&& k.SSTATUS_SPP = 0 := by
    simp [deliver, hcur, he.2]
  have hd_cause : (deliver e s).scause = k.CAUSE_MTIMER_S_TRAP := by
    simp [deliver, hcur, he.1]
  have hd_tick : ((deliver e s).procs P).tick_count = (s.procs P).tick_count := by
    simp [deliver, hcur]
  have hd_queue : (deliver e s).ready_queue = s.ready_queue := by
    simp [deliver, hcur]
  rw [smode_trap_handler_timer k do_syscall schedule fuel _ P hdist hd_mode hd_cur hd_cause]
  rw [rrsched_expired k schedule _ P (by simp [hd_cur]) (by simp [hd_tick]; omega)]
  refine ⟨_, rfl, ?_, ?_, ?_⟩
  · simp
  · simp
  · simp [hd_queue]

/-- Timer traps that stay within the slice, from any tick count on. -/
theorem run_timer_traps_within_slice (k : kconsts)
    (do_syscall : Nat → Nat → Nat → Nat → Nat → Nat → Nat → Nat → Nat)
    (schedule : KState → KState) (fuel : Nat) (P : Nat)
    (hdist : k.CAUSE_MTIMER_S_TRAP ≠ k.CAUSE_USER_ECALL) (es : List trap_entry) :
    ∀ s : KState, s.current = some P →
      (∀ x ∈ es, x.scause = k.CAUSE_MTIMER_S_TRAP ∧ x.sstatus &&& k.SSTATUS_SPP = 0) →
      (s.procs P).tick_count + (es.length : Int) + 1 ≤ k.TIME_SLICE_LEN →
      ∃ s1, run_traps k do_syscall schedule fuel es s = .ok s1 ∧
        s1.current = some P ∧ (s1.procs P).status = (s.procs P).status ∧
        (s1.procs P).tick_count = (s.procs P).tick_count + (es.length : Int) ∧
        s1.ready_queue = s.ready_queue := by
  induction es with
  | nil =>
    intro s hcur _ _
    exact ⟨s, rfl, hcur, rfl, by simp, rfl⟩
  | cons e es ih =>
    intro s hcur hes hlen
    have hlen1 : (s.procs P).tick_count + ((es.length : Int) + 1) + 1 ≤ k.TIME_SLICE_LEN := by
      simpa [add_assoc] using hlen
    obtain ⟨s1, h1, hc1, hs1, ht1, hq1⟩ :=
      timer_trap_within_slice k do_syscall schedule fuel s P e hdist hcur
        (hes e (List.mem_cons_self _ _)) (by omega)
    obtain ⟨s2, h2, hc2, hs2, ht2, hq2⟩ :=
      ih s1 hc1 (fun x hx => hes x (List.mem_cons_of_mem _ hx)) (by rw [ht1]; omega)
    refine ⟨s2, ?_, hc2, by rw [hs2, hs1], ?_, by rw [hq2, hq1]⟩
    · simp [run_traps, h1, h2]
    · rw [ht2, ht1]
      simp only [List.length_cons, Nat.cast_add, Nat.cast_one]
      omega

/-- C8: let `L = TIME_SLICE_LEN` and let process `P` be current and `RUNNING`
with `tick_count = 0`. After any run of at most `L - 1` consecutive timer
traps, `P` is still current and `RUNNING`, the ready queue is as at the start
(so `P` has not been enqueued), and `tick_count` is the number of timer traps
handled. When that number is `L - 1`, the next timer trap (the `L`-th) hands
to `schedule` the state in which `P` is `READY` with `tick_count = 0` and is
appended to the ready queue. -/
theorem timer_traps_round_robin (k : kconsts)
    (do_syscall : Nat → Nat → Nat → Nat → Nat → Nat → Nat → Nat → Nat)
    (schedule : KState → KState) (fuel : Nat) (s : KState) (P : Nat)
    (es : List trap_entry) (e : trap_entry)
    (hdist : k.CAUSE_MTIMER_S_TRAP ≠ k.CAUSE_USER_ECALL)
    (hcur : s.current = some P) (hrun : (s.procs P).status = proc_status.RUNNING)
    (htick : (s.procs P).tick_count = 0)
    (hes : ∀ x ∈ e :: es, x.scause = k.CAUSE_MTIMER_S_TRAP ∧ x.sstatus &&& k.SSTATUS_SPP = 0)
    (hlen : (es.length : Int) ≤ k.TIME_SLICE_LEN - 1) :
    ∃ s1, run_traps k do_syscall schedule fuel es s = .ok s1 ∧
      s1.current = some P ∧ (s1.procs P).status = proc_status.RUNNING ∧
      (s1.procs P).tick_count = (es.length : Int) ∧ s1.ready_queue = s.ready_queue ∧
      ((es.length : Int) = k.TIME_SLICE_LEN - 1 →
        ∃ s2, smode_trap_handler k do_syscall schedule fuel (deliver e s1) = .ok (schedule s2) ∧
          (s2.procs P).status = proc_status.READY ∧ (s2.procs P).tick_count = 0 ∧
          s2.ready_queue = s.ready_queue ++ [P]) := by
  obtain ⟨s1, h1, hc1, hs1, ht1, hq1⟩ :=
    run_timer_traps_within_slice k do_syscall schedule fuel P hdist es s hcur
      (fun x hx => hes x (List.mem_cons_of_mem _ hx)) (by rw [htick]; omega)
  refine ⟨s1, h1, hc1, by rw [hs1, hrun], by rw [ht1, htick]; simp, hq1, fun hL => ?_⟩
  obtain ⟨s2, h2, hs2, ht2, hq2⟩ :=
    timer_trap_end_of_slice k do_syscall schedule fuel s1 P e hdist hc1
      (hes e (List.mem_cons_self _ _)) (by rw [ht1, htick]; omega)
  exact ⟨s2, h2, hs2, ht2, by rw [hq2, hq1]⟩

/-- C8, the scenario of the spec: slice length 5, process 0 `RUNNING` with
`tick_count = 0` and process 3 in the ready queue. After four timer traps
process 0 is `RUNNING` with `tick_count = 4` and the queue is `[3]`; the fifth
sets it `READY` with `tick_count = 0` and makes the queue `[3, 0]`. -/
theorem timer_traps_round_robin_witness :
    ∃ s1, run_traps rv64 router_sum id 0
        [timer_entry 0x100, timer_entry 0x104, timer_entry 0x108, timer_entry 0x10c]
        (st_trap 0) = .ok s1 ∧
      (s1.procs 0).status = proc_status.RUNNING ∧ (s1.procs 0).tick_count = 4 ∧
      s1.ready_queue = [3] ∧
      ∃ s2, smode_trap_handler rv64 router_sum id 0 (deliver (timer_entry 0x110) s1) = .ok s2 ∧
        (s2.procs 0).status = proc_status.READY ∧ (s2.procs 0).tick_count = 0 ∧
        s2.ready_queue = [3, 0] := by
  obtain ⟨s1, h1, _, hs1, ht1, hq1, hlast⟩ :=
    timer_traps_round_robin rv64 router_sum id 0 (st_trap 0) 0
      [timer_entry 0x100, timer_entry 0x104, timer_entry 0x108, timer_entry 0x10c]
      (timer_entry 0x110) (by decide) rfl rfl rfl
      (by
        intro x hx
        simp only [List.mem_cons, List.mem_singleton, List.not_mem_nil, or_false] at hx
        rcases hx with h | h | h | h | h <;> subst h <;> exact ⟨rfl, by decide⟩)
      (by decide)
  obtain ⟨s2, h2, hs2, ht2, hq2⟩ := hlast (by decide)
  exact ⟨s1, h1, hs1, ht1, hq1, s2, h2, hs2, ht2, hq2⟩

/-! ## Fatal traps -/

/-- A trap that did not come from user mode halts at once, on the state of the
trap entry. -/
theorem smode_trap_handler_not_user (k : kconsts)
    (do_syscall : Nat → Nat → Nat → Nat → Nat → Nat → Nat → Nat → Nat)
    (schedule : KState → KState) (fuel : Nat) (s : KState)
    (hmode : s.sstatus &&& k.SSTATUS_SPP ≠ 0) :
    smode_trap_handler k do_syscall schedule fuel s =
      .error (.panic .not_from_user_mode s) := by
  simp [smode_trap_handler, hmode]

/-- A trap from user mode with none of the four causes halts after `epc` was
saved and the two diagnostics were printed. -/
theorem smode_trap_handler_unexpected (k : kconsts)
    (do_syscall : Nat → Nat → Nat → Nat → Nat → Nat → Nat → Nat → Nat)
    (schedule : KState → KState) (fuel : Nat) (s : KState) (P : Nat)
    (hmode : s.sstatus &&& k.SSTATUS_SPP = 0) (hcur : s.current = some P)
    (h1 : s.scause ≠ k.CAUSE_USER_ECALL) (h2 : s.scause ≠ k.CAUSE_MTIMER_S_TRAP)
    (h3 : s.scause ≠ k.CAUSE_STORE_PAGE_FAULT) (h4 : s.scause ≠ k.CAUSE_LOAD_PAGE_FAULT) :
    smode_trap_handler k do_syscall schedule fuel s =
      .error (.panic .unexpected_exception
        (sprint
          (sprint
            (set_proc s P { s.procs P with
              trapframe := { (s.procs P).trapframe with epc := s.sepc } })
            (diag.unexpected_scause s.scause))
          (diag.sepc_stval s.sepc s.stval))) := by
  simp [smode_trap_handler, hmode, hcur, h1, h2, h3, h4]

/-- C5, as the code has it. A trap that did not come from user mode
(`SSTATUS_SPP` set) halts on exactly the state of the trap entry: nothing has
been mutated. A trap from user mode whose `scause` is none of
`CAUSE_USER_ECALL`, `CAUSE_MTIMER_S_TRAP`, `CAUSE_STORE_PAGE_FAULT`,
`CAUSE_LOAD_PAGE_FAULT` halts after the current process's trapframe `epc` has
been overwritten with `sepc`; the trapframe registers, status, `tick_count`
and page table of the current process, every other process, `current`,
`g_ticks`, the ready queue, the allocator and memory equal their values at
trap entry. -/
theorem fatal_trap_state (k : kconsts)
    (do_syscall : Nat → Nat → Nat → Nat → Nat → Nat → Nat → Nat → Nat)
    (schedule : KState → KState) (fuel : Nat) (s : KState) :
    (s.sstatus &&& k.SSTATUS_SPP ≠ 0 →
      smode_trap_handler k do_syscall schedule fuel s =
        .error (.panic .not_from_user_mode s)) ∧
    (∀ P : Nat, s.sstatus &&& k.SSTATUS_SPP = 0 → s.current = some P →
      s.scause ≠ k.CAUSE_USER_ECALL → s.scause ≠ k.CAUSE_MTIMER_S_TRAP →
      s.scause ≠ k.CAUSE_STORE_PAGE_FAULT → s.scause ≠ k.CAUSE_LOAD_PAGE_FAULT →
      ∃ s3, smode_trap_handler k do_syscall schedule fuel s =
          .error (.panic .unexpected_exception s3) ∧
        (s3.procs P).trapframe.epc = s.sepc ∧
        (s3.procs P).trapframe.regs = (s.procs P).trapframe.regs ∧
        (s3.procs P).status = (s.procs P).status ∧
        (s3.procs P).tick_count = (s.procs P).tick_count ∧
        (s3.procs P).pagetable = (s.procs P).pagetable ∧
        (∀ j, j ≠ P → s3.procs j = s.procs j) ∧
        s3.current = s.current ∧ s3.g_ticks = s.g_ticks ∧
        s3.ready_queue = s.ready_queue ∧ s3.free_pages = s.free_pages ∧
        s3.mem = s.mem) := by
  refine ⟨smode_trap_handler_not_user k do_syscall schedule fuel s, ?_⟩
  intro P hmode hcur h1 h2 h3 h4
  refine ⟨_, smode_trap_handler_unexpected k do_syscall schedule fuel s P hmode hcur h1 h2 h3 h4,
    ?_, ?_, ?_, ?_, ?_, ?_, ?_, ?_, ?_, ?_, ?_⟩
  · simp
  · simp
  · simp
  · simp
  · simp
  · intro j hj
    simp [hj]
  · simp
  · simp
  · simp
  · simp
  · simp

/-- C5, at concrete traps: with `SSTATUS_SPP` set the halt is on the entry
state itself; with `scause = 99` the halted state has `epc = sepc = 0x20000`
and the tick counter and ready queue of the entry state. -/
theorem fatal_trap_state_witness :
    smode_trap_handler rv64 router_sum id 0 { st_trap 8 with sstatus := 0x100 } =
        .error (.panic .not_from_user_mode { st_trap 8 with sstatus := 0x100 }) ∧
    ∃ s3, smode_trap_handler rv64 router_sum id 0 (st_trap 99) =
        .error (.panic .unexpected_exception s3) ∧
      (s3.procs 0).trapframe.epc = 0x20000 ∧ (s3.procs 0).tick_count = 0 ∧
      s3.ready_queue = [3] := by
  refine ⟨(fatal_trap_state rv64 router_sum id 0 { st_trap 8 with sstatus := 0x100 }).1
    (by decide), ?_⟩
  obtain ⟨s3, h, he, _, _, ht, _, _, _, _, hq, _⟩ :=
    (fatal_trap_state rv64 router_sum id 0 (st_trap 99)).2 0 (by decide) rfl
      (by decide) (by decide) (by decide) (by decide)
  exact ⟨s3, h, he, ht, hq⟩

/-- C5 fails as stated: a trap from user mode with the unknown cause 99 halts
in a state whose trapframe `epc` is `sepc = 0x20000`, while it was `0x10000`
at trap entry. -/
theorem fatal_trap_overwrites_epc :
    ∃ s3, smode_trap_handler rv64 router_sum id 0 (st_trap 99) =
        .error (.panic .unexpected_exception s3) ∧
      ((st_trap 99).procs 0).trapframe.epc = 0x10000 ∧
      (s3.procs 0).trapframe.epc = 0x20000 ∧
      (s3.procs 0).trapframe.epc ≠ ((st_trap 99).procs 0).trapframe.epc := by
  refine ⟨_, smode_trap_handler_unexpected rv64 router_sum id 0 (st_trap 99) 0
    (by decide) rfl (by decide) (by decide) (by decide) (by decide), rfl, ?_, ?_⟩
  · simp
    rfl
  · simp
    decide

/-! ## Bits of a page-table entry -/

theorem or_and_left_self (a b : Nat) : (a ||| b) &&& a = a := by
  apply Nat.eq_of_testBit_eq
  intro i
  simp only [Nat.testBit_and, Nat.testBit_or]
  cases a.testBit i <;> simp

theorem or_and_right_self (a b : Nat) : (a ||| b) &&& b = b := by
  apply Nat.eq_of_testBit_eq
  intro i
  simp only [Nat.testBit_and, Nat.testBit_or]
  cases b.testBit i <;> simp

theorem and_two_pow_eq_zero (n i : Nat) : n &&& 2 ^ i = 0 ↔ n.testBit i = false := by
  rw [Nat.and_two_pow]
  cases n.testBit i <;> simp

theorem and_two_pow_ne_zero (n i : Nat) : n &&& 2 ^ i ≠ 0 ↔ n.testBit i = true := by
  rw [Nat.and_two_pow]
  cases n.testBit i <;> simp

/-- The expression of strap.c line 75 does not depend on the old entry: for
single bits `PTE_W`, `PTE_R` of a 64-bit word and a copy-on-write bit that is
neither of them, its value is `PTE_W | PTE_R`. -/
theorem cow_pte_eq (k : kconsts) (x r w c : Nat) (hr : r < 64) (hw : w < 64)
    (hR : k.PTE_R = 2 ^ r) (hW : k.PTE_W = 2 ^ w) (hC : k.PTE_C = 2 ^ c)
    (hcr : c ≠ r) (hcw : c ≠ w) :
    cow_pte k x = k.PTE_W ||| k.PTE_R := by
  simp only [cow_pte, hR, hW, hC, WORD]
  apply Nat.eq_of_testBit_eq
  intro i
  simp only [Nat.testBit_and, Nat.testBit_or, Nat.testBit_xor, Nat.testBit_two_pow_sub_one,
    Nat.testBit_two_pow]
  by_cases h1 : w = i
  · subst h1
    simp [hw, hcw]
  · by_cases h2 : r = i
    · subst h2
      simp [hr, hcr]
    · simp [h1, h2]

/-- The page number field does not reach the ten flag bits. -/
theorem entry_testBit (pa f i : Nat) (hi : i < 10) :
    (PA2PTE pa ||| f).testBit i = f.testBit i := by
  simp only [PA2PTE, Nat.testBit_or, Nat.testBit_shiftLeft]
  have : ¬ (i ≥ 10) := by omega
  simp [this]

/-- The address of a page-aligned 64-bit physical page is read back from an
entry built for it, whatever its flag bits. -/
theorem PTE2PA_entry (pa f : Nat) (hpa : pa % PGSIZE = 0) (hlt : pa < WORD) (hf : f < 1024) :
    PTE2PA (PA2PTE pa ||| f) = pa := by
  simp only [PTE2PA, PA2PTE, PGSIZE, WORD] at *
  have h1 : (((pa >>> 12) <<< 10) ||| f) >>> 10 = pa >>> 12 := by
    apply Nat.eq_of_testBit_eq
    intro i
    simp only [Nat.testBit_shiftRight, Nat.testBit_or, Nat.testBit_shiftLeft]
    have : f.testBit (10 + i) = false := by
      apply Nat.testBit_lt_two_pow
      calc f < 1024 := hf
        _ = 2 ^ 10 := by norm_num
        _ ≤ 2 ^ (10 + i) := Nat.pow_le_pow_right (by norm_num) (by omega)
    simp [this]
  rw [h1]
  have h2 : (pa >>> 12) <<< 12 = pa := by
    rw [Nat.shiftRight_eq_div_pow, Nat.shiftLeft_eq]
    omega
  rw [h2]
  exact Nat.mod_eq_of_lt hlt

/-- The physical address in an entry is page aligned. -/
theorem PTE2PA_aligned (pte : Nat) : PTE2PA pte % PGSIZE = 0 := by
  simp only [PTE2PA, PGSIZE, WORD, Nat.shiftLeft_eq]
  omega

/-- A flag bit is below `2^10`. -/
theorem flag_bit_lt {m : Nat} (h : flag_bit m) : m < 1024 := by
  obtain ⟨i, hi, rfl⟩ := h
  calc 2 ^ i < 2 ^ 10 := Nat.pow_lt_pow_right (by norm_num) hi
    _ = 1024 := by norm_num

/-- The bitwise or of two numbers below `2^10` is below `2^10`. -/
theorem or_lt_1024 {a b : Nat} (ha : a < 1024) (hb : b < 1024) : a ||| b < 1024 := by
  have : (1024 : Nat) = 2 ^ 10 := by norm_num
  rw [this] at *
  exact Nat.or_lt_two_pow ha hb

/-- The permission bits of a user read+write mapping. -/
theorem prot_to_type_rw (k : kconsts) (hk : pte_consts_ok k) :
    prot_to_type k (k.PROT_READ ||| k.PROT_WRITE) 1 = k.PTE_R ||| k.PTE_W ||| k.PTE_U := by
  simp [prot_to_type, or_and_left_self, or_and_right_self, hk.prot_read, hk.prot_write]

/-- The same bits for the flags given in the other order (strap.c line 76). -/
theorem prot_to_type_wr (k : kconsts) (hk : pte_consts_ok k) :
    prot_to_type k (k.PROT_WRITE ||| k.PROT_READ) 1 = k.PTE_R ||| k.PTE_W ||| k.PTE_U := by
  simp [prot_to_type, or_and_left_self, or_and_right_self, hk.prot_read, hk.prot_write]

/-- The entry that `map_pages` writes for a user read+write page: its address is
the page, it is valid, readable, writable, user accessible and not
copy-on-write. -/
theorem rw_entry_spec (k : kconsts) (hk : pte_consts_ok k) (pa : Nat)
    (hpa : pa % PGSIZE = 0) (hlt : pa < WORD) :
    PTE2PA (PA2PTE pa ||| (k.PTE_R ||| k.PTE_W ||| k.PTE_U) ||| k.PTE_V) = pa ∧
    (PA2PTE pa ||| (k.PTE_R ||| k.PTE_W ||| k.PTE_U) ||| k.PTE_V) &&& k.PTE_V ≠ 0 ∧
    (PA2PTE pa ||| (k.PTE_R ||| k.PTE_W ||| k.PTE_U) ||| k.PTE_V) &&& k.PTE_R ≠ 0 ∧
    (PA2PTE pa ||| (k.PTE_R ||| k.PTE_W ||| k.PTE_U) ||| k.PTE_V) &&& k.PTE_W ≠ 0 ∧
    (PA2PTE pa ||| (k.PTE_R ||| k.PTE_W ||| k.PTE_U) ||| k.PTE_V) &&& k.PTE_U ≠ 0 ∧
    (PA2PTE pa ||| (k.PTE_R ||| k.PTE_W ||| k.PTE_U) ||| k.PTE_V) &&& k.PTE_C = 0 := by
  have hf : k.PTE_R ||| k.PTE_W ||| k.PTE_U ||| k.PTE_V < 1024 :=
    or_lt_1024 (or_lt_1024 (or_lt_1024 (flag_bit_lt hk.flag_R) (flag_bit_lt hk.flag_W))
      (flag_bit_lt hk.flag_U)) (flag_bit_lt hk.flag_V)
  have hassoc : PA2PTE pa ||| (k.PTE_R ||| k.PTE_W ||| k.PTE_U) ||| k.PTE_V =
      PA2PTE pa ||| (k.PTE_R ||| k.PTE_W ||| k.PTE_U ||| k.PTE_V) := by
    simp [Nat.lor_assoc]
  rw [hassoc]
  obtain ⟨v, hv, hV⟩ := hk.flag_V
  obtain ⟨r, hr, hR⟩ := hk.flag_R
  obtain ⟨w, hw, hW⟩ := hk.flag_W
  obtain ⟨u, hu, hU⟩ := hk.flag_U
  obtain ⟨c, hc, hC⟩ := hk.flag_C
  have hcv : v ≠ c := fun h => hk.C_ne_V (by rw [hC, hV, h])
  have hcr : r ≠ c := fun h => hk.C_ne_R (by rw [hC, hR, h])
  have hcw : w ≠ c := fun h => hk.C_ne_W (by rw [hC, hW, h])
  have hcu : u ≠ c := fun h => hk.C_ne_U (by rw [hC, hU, h])
  refine ⟨PTE2PA_entry pa _ hpa hlt hf, ?_, ?_, ?_, ?_, ?_⟩
  · rw [hV] at hf ⊢
    rw [and_two_pow_ne_zero, entry_testBit _ _ _ hv]
    simp [Nat.testBit_or, Nat.testBit_two_pow]
  · rw [hR] at hf ⊢
    rw [and_two_pow_ne_zero, entry_testBit _ _ _ hr]
    simp [Nat.testBit_or, Nat.testBit_two_pow]
  · rw [hW] at hf ⊢
    rw [and_two_pow_ne_zero, entry_testBit _ _ _ hw]
    simp [Nat.testBit_or, Nat.testBit_two_pow]
  · rw [hU] at hf ⊢
    rw [and_two_pow_ne_zero, entry_testBit _ _ _ hu]
    simp [Nat.testBit_or, Nat.testBit_two_pow]
  · rw [hC, and_two_pow_eq_zero, entry_testBit _ _ _ hc, hR, hW, hU, hV]
    simp [Nat.testBit_or, Nat.testBit_two_pow, hcv, hcr, hcw, hcu]

/-- The constants `rv64` meet the assumptions. -/
theorem rv64_ok : pte_consts_ok rv64 where
  flag_V := ⟨0, by decide, rfl⟩
  flag_R := ⟨1, by decide, rfl⟩
  flag_W := ⟨2, by decide, rfl⟩
  flag_U := ⟨4, by decide, rfl⟩
  flag_C := ⟨8, by decide, rfl⟩
  C_ne_V := by decide
  C_ne_R := by decide
  C_ne_W := by decide
  C_ne_U := by decide
  prot_read := by decide
  prot_write := by decide

/-! ## Page tables -/

theorem ROUNDDOWN_aligned (a : Nat) : ROUNDDOWN a PGSIZE % PGSIZE = 0 := by
  simp [ROUNDDOWN]

theorem ROUNDDOWN_div (a : Nat) : ROUNDDOWN a PGSIZE / PGSIZE = a / PGSIZE := by
  simp [ROUNDDOWN, PGSIZE]

theorem npages_aligned (va : Nat) (h : va % PGSIZE = 0) : npages va PGSIZE = 1 := by
  simp only [npages, PGSIZE] at *
  simp
  omega

/-- Mapping one page at a page-aligned address writes one entry. -/
theorem map_pages_aligned (k : kconsts) (pt : pagetable_t) (va pa perm : Nat)
    (h : va % PGSIZE = 0) :
    map_pages k pt va PGSIZE pa perm =
      pte_write pt (va / PGSIZE) (PA2PTE pa ||| perm ||| k.PTE_V) := by
  rw [map_pages, npages_aligned va h]
  rfl

/-- Unmapping one page at a page-aligned address, without freeing it, clears
the valid bit of its entry, if there is one. -/
theorem user_vm_unmap_aligned (k : kconsts) (pt : pagetable_t) (va : Nat) (fl : List Nat)
    (h : va % PGSIZE = 0) :
    user_vm_unmap k pt va PGSIZE 0 fl =
      match pt (va / PGSIZE) with
      | none => (pt, fl)
      | some pte => (pte_write pt (va / PGSIZE) (pte &&& (WORD - 1 - k.PTE_V)), fl) := by
  rw [user_vm_unmap, npages_aligned va h]
  show unmap_range k 0 (0 + 1) (va / PGSIZE) (pt, fl) = _
  rw [unmap_range]
  cases pt (va / PGSIZE) <;> simp [unmap_range]

@[simp] theorem pte_write_same (pt : pagetable_t) (i v : Nat) :
    pte_write pt i v i = some v := by
  simp [pte_write]

@[simp] theorem pte_write_other (pt : pagetable_t) (i j v : Nat) (h : j ≠ i) :
    pte_write pt i v j = pt j := by
  simp [pte_write, h]

@[simp] theorem set_pagetable_same (s : KState) (i : Nat) (pt : pagetable_t) :
    ((set_pagetable s i pt).procs i).pagetable = pt := by
  simp [set_pagetable]

@[simp] theorem set_pagetable_other (s : KState) (i j : Nat) (pt : pagetable_t) (h : j ≠ i) :
    (set_pagetable s i pt).procs j = s.procs j := by
  simp [set_pagetable, h]

@[simp] theorem set_pagetable_parent (s : KState) (i : Nat) (pt : pagetable_t) :
    ((set_pagetable s i pt).procs i).parent = (s.procs i).parent := by
  simp [set_pagetable]

@[simp] theorem set_pagetable_current (s : KState) (i : Nat) (pt : pagetable_t) :
    (set_pagetable s i pt).current = s.current := rfl

@[simp] theorem set_pagetable_free_pages (s : KState) (i : Nat) (pt : pagetable_t) :
    (set_pagetable s i pt).free_pages = s.free_pages := rfl

@[simp] theorem set_pagetable_mem (s : KState) (i : Nat) (pt : pagetable_t) :
    (set_pagetable s i pt).mem = s.mem := rfl

@[simp] theorem set_pagetable_twice (s : KState) (i : Nat) (pt1 pt2 : pagetable_t) :
    set_pagetable (set_pagetable s i pt1) i pt2 = set_pagetable s i pt2 := by
  simp [set_pagetable]

/-! ## Page faults: demand paging -/

/-- Any cause but the store page fault takes the `default` branch: two
diagnostics, nothing else. -/
theorem handle_user_page_fault_default (k : kconsts) (fuel mcause sepc stval : Nat)
    (s : KState) (h : mcause ≠ k.CAUSE_STORE_PAGE_FAULT) :
    handle_user_page_fault k fuel mcause sepc stval s =
      .ok (sprint (sprint s (diag.handle_page_fault stval)) diag.unknown_page_fault) := by
  simp [handle_user_page_fault, h]

/-- The unmapped branch of a store page fault when `alloc_page` returns the
page `p`: one state update. -/
theorem store_fault_unmapped_eq (k : kconsts) (fuel sepc stval : Nat) (s : KState)
    (P p : Nat) (fl : List Nat) (hcur : s.current = some P)
    (hwalk : page_walk (s.procs P).pagetable stval = none)
    (hfree : s.free_pages = p :: fl) (hp0 : p ≠ 0) :
    handle_user_page_fault k fuel k.CAUSE_STORE_PAGE_FAULT sepc stval s =
      .ok (set_pagetable
        { sprint s (diag.handle_page_fault stval) with
          free_pages := fl, mem := zero_fill s.mem p PGSIZE } P
        (pte_write (s.procs P).pagetable (stval / PGSIZE)
          (PA2PTE p ||| prot_to_type k (k.PROT_READ ||| k.PROT_WRITE) 1 ||| k.PTE_V))) := by
  simp only [handle_user_page_fault, sprint_current, sprint_procs, hcur, hwalk, if_true,
    alloc_page, sprint_free_pages, hfree, hp0, if_false,
    map_pages_aligned k _ _ _ _ (ROUNDDOWN_aligned stval), ROUNDDOWN_div]
  rfl

/-- A store page fault on a page whose entry is present and not copy-on-write
changes nothing but the diagnostic output. -/
theorem store_fault_private_eq (k : kconsts) (fuel sepc stval : Nat) (s : KState)
    (P e : Nat) (hcur : s.current = some P)
    (hent : (s.procs P).pagetable (stval / PGSIZE) = some e) (hC : e &&& k.PTE_C = 0) :
    handle_user_page_fault k fuel k.CAUSE_STORE_PAGE_FAULT sepc stval s =
      .ok (sprint s (diag.handle_page_fault stval)) := by
  simp [handle_user_page_fault, hcur, page_walk, hent, pte_read, hC]

/-- C3: a store page fault at `stval`, for which `page_walk` on the current
process's page table finds no entry and `alloc_page` succeeds with the page
`p` at the head of the free list. The handler returns; exactly one page has
left the free list; the entry of the page of `stval` is the one for `p` with
the valid, read, write and user bits set and the copy-on-write bit clear, so
`ROUNDDOWN(stval, PGSIZE)` translates to `p`; every other entry of the page
table and every other process are unchanged; `page_walk` for `stval` now
finds the entry; and handling a store page fault at `stval` again returns
with the page tables, the free list and memory unchanged. -/
theorem demand_paging_maps_one_page (k : kconsts) (hk : pte_consts_ok k)
    (fuel sepc stval : Nat) (s : KState) (P p : Nat) (fl : List Nat)
    (hcur : s.current = some P)
    (hwalk : page_walk (s.procs P).pagetable stval = none)
    (hfree : s.free_pages = p :: fl) (hp0 : p ≠ 0) (hpa : p % PGSIZE = 0) (hlt : p < WORD) :
    ∃ s1, handle_user_page_fault k fuel k.CAUSE_STORE_PAGE_FAULT sepc stval s = .ok s1 ∧
      s1.free_pages = fl ∧
      (s1.procs P).pagetable (stval / PGSIZE) =
        some (PA2PTE p ||| (k.PTE_R ||| k.PTE_W ||| k.PTE_U) ||| k.PTE_V) ∧
      lookup_pa k (s1.procs P).pagetable (ROUNDDOWN stval PGSIZE) = p ∧
      (∀ e, (s1.procs P).pagetable (stval / PGSIZE) = some e →
        e &&& k.PTE_V ≠ 0 ∧ e &&& k.PTE_R ≠ 0 ∧ e &&& k.PTE_W ≠ 0 ∧ e &&& k.PTE_U ≠ 0 ∧
        e &&& k.PTE_C = 0) ∧
      (∀ vpn, vpn ≠ stval / PGSIZE →
        (s1.procs P).pagetable vpn = (s.procs P).pagetable vpn) ∧
      (∀ j, j ≠ P → s1.procs j = s.procs j) ∧
      page_walk (s1.procs P).pagetable stval = some (stval / PGSIZE) ∧
      ∀ fuel2 sepc2, ∃ s2,
        handle_user_page_fault k fuel2 k.CAUSE_STORE_PAGE_FAULT sepc2 stval s1 = .ok s2 ∧
        s2.procs = s1.procs ∧ s2.free_pages = s1.free_pages ∧ s2.mem = s1.mem := by
  obtain ⟨hpte, hV, hR, hW, hU, hC⟩ := rw_entry_spec k hk p hpa hlt
  have hent : ((set_pagetable
        { sprint s (diag.handle_page_fault stval) with
          free_pages := fl, mem := zero_fill s.mem p PGSIZE } P
        (pte_write (s.procs P).pagetable (stval / PGSIZE)
          (PA2PTE p ||| prot_to_type k (k.PROT_READ ||| k.PROT_WRITE) 1 ||| k.PTE_V))).procs
          P).pagetable (stval / PGSIZE) =
      some (PA2PTE p ||| (k.PTE_R ||| k.PTE_W ||| k.PTE_U) ||| k.PTE_V) := by
    simp [prot_to_type_rw k hk]
  refine ⟨_, store_fault_unmapped_eq k fuel sepc stval s P p fl hcur hwalk hfree hp0,
    rfl, hent, ?_, ?_, ?_, ?_, ?_, ?_⟩
  · unfold lookup_pa
    rw [ROUNDDOWN_div, hent]
    simp only []
    rw [if_pos hV, hpte, ROUNDDOWN_aligned]
    rfl
  · intro e he
    rw [hent] at he
    cases he
    exact ⟨hV, hR, hW, hU, hC⟩
  · intro vpn hvpn
    simp [hvpn]
  · intro j hj
    simp [hj]
  · simp [page_walk, hent]
  · intro fuel2 sepc2
    refine ⟨_, store_fault_private_eq k fuel2 sepc2 stval _ P _ ?_ hent hC, rfl, rfl, rfl⟩
    simp [hcur]

/-- C3, at a concrete fault: a store to `0x7123` with no entry for its page and
the free page `0x80400000`. Afterwards the free list is empty, the page
`0x7000` translates to `0x80400000`, and the walk for `0x7123` finds the
entry of virtual page 7. -/
theorem demand_paging_maps_one_page_witness :
    ∃ s1, handle_user_page_fault rv64 0 0xf 0x20000 0x7123 (st_trap 0xf) = .ok s1 ∧
      s1.free_pages = [] ∧ (s1.procs 0).pagetable 7 = some 0x20100017 ∧
      lookup_pa rv64 (s1.procs 0).pagetable 0x7000 = 0x80400000 ∧
      page_walk (s1.procs 0).pagetable 0x7123 = some 7 := by
  obtain ⟨s1, h, hf, he, hl, _, _, _, hw, _⟩ :=
    demand_paging_maps_one_page rv64 rv64_ok 0 0x20000 0x7123 (st_trap 0xf) 0 0x80400000 []
      rfl (by decide) rfl (by decide) (by decide) (by decide)
  exact ⟨s1, h, hf, he, hl, hw⟩

/-! ## Page faults: load faults -/

/-- The page fault path of `smode_trap_handler`. -/
theorem smode_trap_handler_page_fault (k : kconsts)
    (do_syscall : Nat → Nat → Nat → Nat → Nat → Nat → Nat → Nat → Nat)
    (schedule : KState → KState) (fuel : Nat) (s : KState) (P : Nat)
    (hmode : s.sstatus &&& k.SSTATUS_SPP = 0) (hcur : s.current = some P)
    (h1 : s.scause ≠ k.CAUSE_USER_ECALL) (h2 : s.scause ≠ k.CAUSE_MTIMER_S_TRAP)
    (h3 : s.scause = k.CAUSE_STORE_PAGE_FAULT ∨ s.scause = k.CAUSE_LOAD_PAGE_FAULT) :
    smode_trap_handler k do_syscall schedule fuel s =
      handle_user_page_fault k fuel s.scause s.sepc s.stval
        (set_proc s P { s.procs P with
          trapframe := { (s.procs P).trapframe with epc := s.sepc } }) := by
  simp [smode_trap_handler, hmode, hcur, h1, h2, h3]

/-- C9, as the code has it: `handle_user_page_fault` resolves store page faults
only. For the cause `CAUSE_LOAD_PAGE_FAULT`, and for every cause other than
`CAUSE_STORE_PAGE_FAULT`, it prints the fault address and "unknown page fault"
and returns: no page is allocated, no page table, no process and no memory
changes, whether or not the faulting address has an entry. -/
theorem load_page_fault_not_resolved (k : kconsts) (fuel sepc stval : Nat) (s : KState)
    (hdist : k.CAUSE_LOAD_PAGE_FAULT ≠ k.CAUSE_STORE_PAGE_FAULT) :
    (∃ s1, handle_user_page_fault k fuel k.CAUSE_LOAD_PAGE_FAULT sepc stval s = .ok s1 ∧
      s1.procs = s.procs ∧ s1.free_pages = s.free_pages ∧ s1.mem = s.mem ∧
      s1.console = s.console ++ [diag.handle_page_fault stval, diag.unknown_page_fault]) ∧
    (∀ mcause, mcause ≠ k.CAUSE_STORE_PAGE_FAULT →
      ∃ s1, handle_user_page_fault k fuel mcause sepc stval s = .ok s1 ∧
        s1.procs = s.procs ∧ s1.free_pages = s.free_pages ∧ s1.mem = s.mem ∧
        s1.console = s.console ++ [diag.handle_page_fault stval, diag.unknown_page_fault]) := by
  have key : ∀ mcause, mcause ≠ k.CAUSE_STORE_PAGE_FAULT →
      ∃ s1, handle_user_page_fault k fuel mcause sepc stval s = .ok s1 ∧
        s1.procs = s.procs ∧ s1.free_pages = s.free_pages ∧ s1.mem = s.mem ∧
        s1.console = s.console ++ [diag.handle_page_fault stval, diag.unknown_page_fault] := by
    intro mcause h
    exact ⟨_, handle_user_page_fault_default k fuel mcause sepc stval s h, rfl, rfl, rfl,
      by simp⟩
  exact ⟨key _ hdist, key⟩

/-- C9, at a concrete fault: a load from `0x7123` with no entry for its page and
a free page at hand leaves the page unmapped and the free list as it was. -/
theorem load_page_fault_not_resolved_witness :
    ∃ s1, handle_user_page_fault rv64 0 0xd 0x20000 0x7123 (st_trap 0xd) = .ok s1 ∧
      s1.procs = (st_trap 0xd).procs ∧ s1.free_pages = [0x80400000] := by
  obtain ⟨s1, h, hp, hf, _⟩ :=
    (load_page_fault_not_resolved rv64 0 0x20000 0x7123 (st_trap 0xd) (by decide)).1
  exact ⟨s1, h, hp, hf⟩

/-- C9 fails as stated: the trap with cause `CAUSE_LOAD_PAGE_FAULT` at the
unmapped address `0x7000`, with the free page `0x80400000` in the allocator,
is handled without mapping anything: afterwards the walk for `0x7000` still
finds no entry and the page is still in the free list. -/
theorem load_page_fault_leaves_page_unmapped :
    ∃ s1, smode_trap_handler rv64 router_sum id 0 (st_trap 0xd) = .ok s1 ∧
      page_walk ((st_trap 0xd).procs 0).pagetable 0x7000 = none ∧
      page_walk (s1.procs 0).pagetable 0x7000 = none ∧
      lookup_pa rv64 (s1.procs 0).pagetable 0x7000 = 0 ∧
      s1.free_pages = [0x80400000] := by
  refine ⟨_, (smode_trap_handler_page_fault rv64 router_sum id 0 (st_trap 0xd) 0 (by decide) rfl
      (by decide) (by decide) (by decide)).trans
      (handle_user_page_fault_default rv64 0 _ _ _ _ (by decide)), by decide, ?_, ?_, ?_⟩
  · simp
    decide
  · simp
    decide
  · simp
    rfl

/-! ## Page faults: copy-on-write -/

/-- Two kernel states with the same fields are equal. -/
theorem KState_ext {a b : KState} (h1 : a.procs = b.procs) (h2 : a.current = b.current)
    (h3 : a.g_ticks = b.g_ticks) (h4 : a.sstatus = b.sstatus) (h5 : a.sepc = b.sepc)
    (h6 : a.scause = b.scause) (h7 : a.stval = b.stval) (h8 : a.sip = b.sip)
    (h9 : a.ready_queue = b.ready_queue) (h10 : a.free_pages = b.free_pages)
    (h11 : a.mem = b.mem) (h12 : a.console = b.console) : a = b := by
  cases a
  cases b
  simp only [KState.mk.injEq]
  exact ⟨h1, h2, h3, h4, h5, h6, h7, h8, h9, h10, h11, h12⟩

/-- A second store through the same pointer wins. -/
theorem pte_write_twice (pt : pagetable_t) (i a b : Nat) :
    pte_write (pte_write pt i a) i b = pte_write pt i b := by
  funext j
  by_cases h : j = i <;> simp [pte_write, h]

/-- The process table after a page table was replaced. -/
theorem set_pagetable_procs (s : KState) (i : Nat) (pt : pagetable_t) :
    (set_pagetable s i pt).procs =
      fun j => if j = i then { s.procs i with pagetable := pt } else s.procs j := rfl

/-- The state of the allocator is all that `alloc_page` changes besides
memory. -/
theorem alloc_page_procs (s : KState) : (alloc_page s).2.procs = s.procs := by
  unfold alloc_page
  cases s.free_pages <;> rfl

/-- Unmapping pages from `vpn` on leaves the entries below `vpn` alone. -/
theorem unmap_range_below (k : kconsts) (free : Nat) :
    ∀ (n vpn : Nat) (r : pagetable_t × List Nat) (j : Nat), j < vpn →
      (unmap_range k free n vpn r).1 j = r.1 j := by
  intro n
  induction n with
  | zero =>
    intro vpn r j _
    rfl
  | succ n ih =>
    intro vpn r j hj
    obtain ⟨pt, fl⟩ := r
    rw [unmap_range]
    cases hpt : pt vpn with
    | none =>
      simp only []
      exact ih (vpn + 1) _ j (by omega)
    | some pte =>
      simp only []
      rw [ih (vpn + 1) _ j (by omega)]
      exact pte_write_other pt vpn j _ (by omega)

/-- After the unmap of line 72 the entry of the page of `heap_block` is the old
one with the valid bit cleared. -/
theorem user_vm_unmap_entry (k : kconsts) (pt : pagetable_t) (heap_block e : Nat)
    (fl : List Nat) (hent : pt (heap_block / PGSIZE) = some e) :
    (user_vm_unmap k pt heap_block PGSIZE 0 fl).1 (heap_block / PGSIZE) =
      some (e &&& (WORD - 1 - k.PTE_V)) := by
  have hn : npages heap_block PGSIZE =
      ((heap_block + PGSIZE - 1) / PGSIZE - heap_block / PGSIZE) + 1 := by
    simp [npages, PGSIZE]
  rw [user_vm_unmap, hn, unmap_range, hent]
  simp only []
  rw [unmap_range_below k 0 _ _ _ _ (Nat.lt_succ_self _)]
  exact pte_write_same pt _ _

/-- Lines 72 to 75 for a heap page with the entry `e`: `child_pa` is what
`alloc_page` returns, and the entry becomes `cow_pte` of `e` with the valid
bit cleared. -/
theorem cow_reset_pte_eq (k : kconsts) (cur heap_block e : Nat) (s : KState)
    (hent : (s.procs cur).pagetable (heap_block / PGSIZE) = some e) :
    ∃ s3, cow_reset_pte k cur heap_block s =
        .ok ((alloc_page { set_pagetable s cur
          (user_vm_unmap k (s.procs cur).pagetable heap_block PGSIZE 0 s.free_pages).1 with
          free_pages :=
            (user_vm_unmap k (s.procs cur).pagetable heap_block PGSIZE 0 s.free_pages).2 }).1,
          s3) ∧
      (s3.procs cur).pagetable (heap_block / PGSIZE) =
        some (cow_pte k (e &&& (WORD - 1 - k.PTE_V))) := by
  have hent1 := user_vm_unmap_entry k (s.procs cur).pagetable heap_block e s.free_pages hent
  unfold cow_reset_pte
  simp only [alloc_page_procs, set_pagetable_same, page_walk, hent1, Option.isSome_some,
    if_true, pte_read, Option.getD_some]
  exact ⟨_, rfl, by simp⟩

/-- Lines 72 to 77 for a heap page with an entry, when `alloc_page` returns the
page `p` and the parent has a translation for the page: the entry is replaced
by the read+write entry for `p`, and `p` receives the bytes of the parent's
page at the same address. -/
theorem cow_privatize_eq (k : kconsts) (hk : pte_consts_ok k) (c par heap_block e p : Nat)
    (rest : List Nat) (t : KState) (hne : par ≠ c) (hal : heap_block % PGSIZE = 0)
    (hent : (t.procs c).pagetable (heap_block / PGSIZE) = some e)
    (hfree : t.free_pages = p :: rest) (hpar : (t.procs c).parent = some par)
    (hp0 : p ≠ 0) (hsrc : lookup_pa k (t.procs par).pagetable heap_block ≠ 0) :
    cow_privatize k c heap_block t =
      .ok { set_pagetable t c
              (pte_write (t.procs c).pagetable (heap_block / PGSIZE) (rw_entry k p)) with
            free_pages := rest,
            mem := memcpy (zero_fill t.mem p PGSIZE) p
              (lookup_pa k (t.procs par).pagetable heap_block) PGSIZE } := by
  unfold cow_privatize cow_reset_pte
  rw [user_vm_unmap_aligned k _ _ _ hal, hent]
  simp only [alloc_page, set_pagetable_free_pages, hfree]
  simp only [page_walk, set_pagetable_same, pte_write_same, Option.isSome_some, if_true,
    set_pagetable_parent, hpar, user_vm_map, map_pages_aligned k _ _ _ _ hal,
    prot_to_type_wr k hk, pte_write_twice, set_pagetable_twice]
  rw [if_neg (by simp [set_pagetable_procs, hne, hp0, hsrc])]
  congr 1
  apply KState_ext <;> try rfl
  · funext j
    by_cases h : j = c
    · subst h
      simp [set_pagetable_procs, rw_entry]
    · simp [set_pagetable_procs, h]
  · simp [set_pagetable_procs, hne]

/-- Two distinct page-aligned pages do not overlap. -/
theorem pages_disjoint (p q i : Nat) (hp : p % PGSIZE = 0) (hq : q % PGSIZE = 0) (hpq : p ≠ q)
    (hi : i < PGSIZE) : ¬ (q ≤ p + i ∧ p + i < q + PGSIZE) := by
  simp only [PGSIZE] at *
  omega

/-- A translation that is not the null address comes from a valid entry. -/
theorem lookup_pa_ne_zero (k : kconsts) (pt : pagetable_t) (va : Nat)
    (h : lookup_pa k pt va ≠ 0) :
    ∃ e, pt (va / PGSIZE) = some e ∧ e &&& k.PTE_V ≠ 0 ∧
      lookup_pa k pt va = PTE2PA e + va % PGSIZE := by
  unfold lookup_pa at h ⊢
  cases hpt : pt (va / PGSIZE) with
  | none => simp [hpt] at h
  | some e =>
    simp only [hpt] at h ⊢
    by_cases hv : e &&& k.PTE_V ≠ 0
    · exact ⟨e, rfl, hv, by rw [if_pos hv]⟩
    · rw [if_neg hv] at h
      exact absurd rfl h

/-- The translation of a page-aligned address under a valid entry. -/
theorem lookup_pa_aligned (k : kconsts) (pt : pagetable_t) (va e : Nat)
    (hal : va % PGSIZE = 0) (hent : pt (va / PGSIZE) = some e) (hv : e &&& k.PTE_V ≠ 0) :
    lookup_pa k pt va = PTE2PA e := by
  unfold lookup_pa
  rw [hent]
  simp only []
  rw [if_pos hv, hal]
  rfl

/-- The bytes of a mapped page: the translation of `va + i` is the translation
of the page-aligned `va` plus `i`. -/
theorem lookup_pa_offset (k : kconsts) (pt : pagetable_t) (va i : Nat)
    (hal : va % PGSIZE = 0) (hi : i < PGSIZE) (h : lookup_pa k pt va ≠ 0) :
    lookup_pa k pt (va + i) = lookup_pa k pt va + i := by
  obtain ⟨e, hent, hv, hl⟩ := lookup_pa_ne_zero k pt va h
  rw [hl, hal]
  unfold lookup_pa
  have h1 : (va + i) / PGSIZE = va / PGSIZE := by
    simp only [PGSIZE] at *
    omega
  have h2 : (va + i) % PGSIZE = i := by
    simp only [PGSIZE] at *
    omega
  rw [h1, hent]
  simp only []
  rw [if_pos hv, h2]
  rfl

/-- The scan keeps its invariant, and with enough fuel and a free page for every
page it privatizes it runs to the end of the parent's heap. -/
theorem cow_scan_inv (k : kconsts) (hk : pte_consts_ok k) (s : KState)
    (c par V pa_sh e top : Nat) (fl : List Nat)
    (hne : par ≠ c) (htop : (s.procs par).user_heap.heap_top = top)
    (htopw : top + PGSIZE ≤ WORD) (hVal : V % PGSIZE = 0)
    (hent : (s.procs c).pagetable (V / PGSIZE) = some e) (heV : e &&& k.PTE_V ≠ 0)
    (hpa : PTE2PA e = pa_sh) (hpa0 : pa_sh ≠ 0) (hpaw : pa_sh + PGSIZE < WORD)
    (hshare : lookup_pa k (s.procs par).pagetable V = pa_sh)
    (hsrc : ∀ va, pa_sh ≤ lookup_pa k (s.procs c).pagetable va →
      lookup_pa k (s.procs c).pagetable va < pa_sh + PGSIZE →
      lookup_pa k (s.procs par).pagetable va ≠ 0)
    (hfl_nz : ∀ q ∈ fl, q ≠ 0)
    (hfl_al : ∀ q ∈ fl, q % PGSIZE = 0) (hfl_nd : fl.Nodup)
    (hfl_dis : ∀ q ∈ fl, ∀ va, ¬ (q ≤ lookup_pa k (s.procs par).pagetable va ∧
      lookup_pa k (s.procs par).pagetable va < q + PGSIZE)) :
    ∀ (fuel heap_block : Nat) (t : KState) (used : List Nat),
      heap_block % PGSIZE = 0 → cow_inv k s c par V pa_sh fl heap_block t used →
      cow_allocs k (s.procs c).pagetable pa_sh top fuel heap_block ≤ t.free_pages.length →
      (top + PGSIZE - 1 - heap_block) / PGSIZE + 1 ≤ fuel →
      ∃ s1 used1 hb1, cow_scan k pa_sh fuel heap_block t = .ok s1 ∧ top ≤ hb1 ∧
        cow_inv k s c par V pa_sh fl hb1 s1 used1 := by
  have hlookV : lookup_pa k (s.procs c).pagetable V = pa_sh := by
    rw [lookup_pa_aligned k _ V e hVal hent heV, hpa]
  have hbytes : ∀ i, i < PGSIZE → lookup_pa k (s.procs par).pagetable (V + i) = pa_sh + i := by
    intro i hi
    rw [lookup_pa_offset k _ V i hVal hi (by rw [hshare]; exact hpa0), hshare]
  intro fuel
  induction fuel with
  | zero =>
    intro heap_block t used _ _ _ hfuel
    exact absurd hfuel (Nat.not_succ_le_zero _)
  | succ n ih =>
    intro heap_block t used hal inv hcount hfuel
    have htop_t : (t.procs par).user_heap.heap_top = top := by
      rw [inv.others par hne, htop]
    have hlook : lookup_pa k (t.procs c).pagetable heap_block =
        lookup_pa k (s.procs c).pagetable heap_block := by
      unfold lookup_pa
      rw [inv.table (heap_block / PGSIZE) (le_refl _)]
    rw [cow_scan]
    simp only [inv.cur, inv.parent, htop_t]
    by_cases hlt : heap_block < top
    · rw [if_pos hlt]
      have hnext : (heap_block + PGSIZE) % WORD = heap_block + PGSIZE :=
        Nat.mod_eq_of_lt (by omega)
      have hrange : (pa_sh + PGSIZE) % WORD = pa_sh + PGSIZE := Nat.mod_eq_of_lt hpaw
      have hal1 : (heap_block + PGSIZE) % PGSIZE = 0 := by
        simp only [PGSIZE] at *
        omega
      have hfuel1 : (top + PGSIZE - 1 - (heap_block + PGSIZE)) / PGSIZE + 1 ≤ n := by
        simp only [PGSIZE] at *
        omega
      have hvpn : (heap_block + PGSIZE) / PGSIZE = heap_block / PGSIZE + 1 := by
        simp only [PGSIZE] at *
        omega
      rw [cow_allocs, if_pos hlt] at hcount
      rw [hnext, hrange, hlook]
      rw [hrange] at hcount
      by_cases hm : lookup_pa k (s.procs c).pagetable heap_block ≥ pa_sh ∧
          lookup_pa k (s.procs c).pagetable heap_block < pa_sh + PGSIZE
      · rw [if_pos hm]
        rw [if_pos hm] at hcount
        have hne0 : lookup_pa k (t.procs c).pagetable heap_block ≠ 0 := by
          rw [hlook]
          omega
        obtain ⟨e1, hent1, _, _⟩ := lookup_pa_ne_zero k _ _ hne0
        obtain ⟨p, rest, hfree⟩ : ∃ p rest, t.free_pages = p :: rest := by
          cases hf : t.free_pages with
          | nil => rw [hf] at hcount; simp at hcount
          | cons p rest => exact ⟨p, rest, rfl⟩
        have hpfl : p ∈ fl := by
          rw [inv.split, hfree]
          simp
        have hsplit : fl = (used ++ [p]) ++ rest := by
          rw [inv.split, hfree]
          simp
        rw [cow_privatize_eq k hk c par heap_block e1 p rest t hne hal hent1 hfree inv.parent
          (hfl_nz p hpfl) (by rw [inv.others par hne]; exact hsrc heap_block hm.1 hm.2)]
        simp only []
        apply ih (heap_block + PGSIZE) _ (used ++ [p]) hal1 _ _ hfuel1
        · refine ⟨inv.cur, ?_, ?_, hsplit, ?_, ?_, ?_⟩
          · simp [set_pagetable_procs, inv.parent]
          · intro j hj
            simp [set_pagetable_procs, hj, inv.others j hj]
          · intro a ha
            have hap : ¬ (p ≤ a ∧ a < p + PGSIZE) := ha p (by simp)
            have hau : ∀ q ∈ used, ¬ (q ≤ a ∧ a < q + PGSIZE) :=
              fun q hq => ha q (by simp [hq])
            simp only [memcpy, zero_fill, if_neg hap]
            exact inv.frame a hau
          · intro vpn hv
            rw [hvpn] at hv
            have : vpn ≠ heap_block / PGSIZE := by omega
            simp [set_pagetable_procs, this]
            exact inv.table vpn (by omega)
          · intro hV
            by_cases hVlt : V < heap_block
            · obtain ⟨p0, hp0, hent0, hmem0⟩ := inv.done hVlt
              have hvne : V / PGSIZE ≠ heap_block / PGSIZE := by
                simp only [PGSIZE] at *
                omega
              have hp0fl : p0 ∈ fl := by
                rw [inv.split]
                simp [hp0]
              have hp0p : p0 ≠ p := by
                intro h
                rw [hsplit] at hfl_nd
                have := (List.nodup_append.1 (List.nodup_append.1 hfl_nd).1).2.2
                exact this hp0 (by rw [h]; simp)
              refine ⟨p0, by simp [hp0], ?_, ?_⟩
              · simp [set_pagetable_procs, hvne, hent0]
              · intro i hi
                have hd := pages_disjoint p0 p i (hfl_al p0 hp0fl) (hfl_al p hpfl) hp0p hi
                simp only [memcpy, zero_fill, if_neg hd]
                exact hmem0 i hi
            · have hVeq : V = heap_block := by
                simp only [PGSIZE] at *
                omega
              subst hVeq
              refine ⟨p, by simp, ?_, ?_⟩
              · simp [set_pagetable_procs]
              · intro i hi
                have hin : p ≤ p + i ∧ p + i < p + PGSIZE := ⟨by omega, by omega⟩
                have hsrc : lookup_pa k (t.procs par).pagetable V = pa_sh := by
                  rw [inv.others par hne, hshare]
                have hdis : ¬ (p ≤ pa_sh + i ∧ pa_sh + i < p + PGSIZE) := by
                  have := hfl_dis p hpfl (V + i)
                  rw [hbytes i hi] at this
                  exact this
                simp only [memcpy, zero_fill, if_pos hin, hsrc, Nat.add_sub_cancel_left,
                  if_neg hdis]
                apply inv.frame
                intro q hq
                have hqfl : q ∈ fl := by
                  rw [inv.split]
                  simp [hq]
                have := hfl_dis q hqfl (V + i)
                rw [hbytes i hi] at this
                exact this
        · simp [hfree] at hcount ⊢
          omega
      · rw [if_neg hm]
        rw [if_neg hm] at hcount
        apply ih (heap_block + PGSIZE) t used hal1 _ _ hfuel1
        · refine ⟨inv.cur, inv.parent, inv.others, inv.split, inv.frame, ?_, ?_⟩
          · intro vpn hv
            rw [hvpn] at hv
            exact inv.table vpn (by omega)
          · intro hV
            by_cases hVlt : V < heap_block
            · exact inv.done hVlt
            · have hVeq : V = heap_block := by
                simp only [PGSIZE] at *
                omega
              subst hVeq
              rw [hlookV] at hm
              exact absurd ⟨le_refl _, by omega⟩ hm
        · simpa using hcount
    · rw [if_neg hlt]
      exact ⟨t, used, heap_block, rfl, by omega, inv⟩

/-- The copy-on-write fault when every `alloc_page` call of the scan succeeds.
The current process `c` is a child of `par`; `V` is a page of the parent's
page-aligned heap range; the child's entry for `V` is valid and copy-on-write
and points at the physical page `pa_sh`, to which the parent maps `V` too; the
parent has a translation for every page that the child translates into
`pa_sh`; the free list holds distinct, page-aligned, non-null pages that
overlap nothing the parent maps, at least one for every heap page the scan
privatizes. Then a store page fault in `V`
is handled, with enough fuel, so that (a) the child's entry for `V` points at
a page `p` taken from the free list, different from `pa_sh`; (b) the
`PGSIZE` bytes of `p` are those of `pa_sh` at the fault; (c) the parent
process, its page table included, and every byte the parent maps are
unchanged; (d) the child's entry for `V` is valid, writable, readable, user
accessible and not copy-on-write, and a further store page fault in `V`
changes no page table, allocates nothing and copies nothing. -/
theorem cow_fault_privatizes_page (k : kconsts) (hk : pte_consts_ok k)
    (fuel sepc stval : Nat) (s : KState) (c par V pa_sh e : Nat)
    (hcur : s.current = some c) (hparent : (s.procs c).parent = some par) (hne : par ≠ c)
    (hVal : V % PGSIZE = 0) (hstval : stval / PGSIZE = V / PGSIZE)
    (hbot_al : (s.procs par).user_heap.heap_bottom % PGSIZE = 0)
    (hbot : (s.procs par).user_heap.heap_bottom ≤ V)
    (hVtop : V < (s.procs par).user_heap.heap_top)
    (htopw : (s.procs par).user_heap.heap_top + PGSIZE ≤ WORD)
    (hent : (s.procs c).pagetable (V / PGSIZE) = some e)
    (heV : e &&& k.PTE_V ≠ 0) (heC : e &&& k.PTE_C ≠ 0)
    (hpa : PTE2PA e = pa_sh) (hpa0 : pa_sh ≠ 0) (hpaw : pa_sh + PGSIZE < WORD)
    (hshare : lookup_pa k (s.procs par).pagetable V = pa_sh)
    (hsrc : ∀ va, pa_sh ≤ lookup_pa k (s.procs c).pagetable va →
      lookup_pa k (s.procs c).pagetable va < pa_sh + PGSIZE →
      lookup_pa k (s.procs par).pagetable va ≠ 0)
    (hfl_nz : ∀ q ∈ s.free_pages, q ≠ 0)
    (hfl_al : ∀ q ∈ s.free_pages, q % PGSIZE = 0)
    (hfl_lt : ∀ q ∈ s.free_pages, q < WORD)
    (hfl_nd : s.free_pages.Nodup)
    (hfl_dis : ∀ q ∈ s.free_pages, ∀ va,
      ¬ (q ≤ lookup_pa k (s.procs par).pagetable va ∧
        lookup_pa k (s.procs par).pagetable va < q + PGSIZE))
    (halloc : cow_allocs k (s.procs c).pagetable pa_sh (s.procs par).user_heap.heap_top fuel
      (s.procs par).user_heap.heap_bottom ≤ s.free_pages.length)
    (hfuel : ((s.procs par).user_heap.heap_top + PGSIZE - 1 -
      (s.procs par).user_heap.heap_bottom) / PGSIZE + 1 ≤ fuel) :
    ∃ s1 p, handle_user_page_fault k fuel k.CAUSE_STORE_PAGE_FAULT sepc stval s = .ok s1 ∧
      ((∃ used, s.free_pages = used ++ s1.free_pages ∧ p ∈ used) ∧
        p ∈ s.free_pages ∧ p ∉ s1.free_pages ∧ p ≠ 0 ∧ p ≠ pa_sh ∧
        lookup_pa k (s1.procs c).pagetable V = p) ∧
      (∀ i, i < PGSIZE → s1.mem (p + i) = s.mem (pa_sh + i)) ∧
      (s1.procs par = s.procs par ∧
        ∀ va, s1.mem (lookup_pa k (s.procs par).pagetable va) =
          s.mem (lookup_pa k (s.procs par).pagetable va)) ∧
      (∃ e1, (s1.procs c).pagetable (V / PGSIZE) = some e1 ∧
        e1 &&& k.PTE_V ≠ 0 ∧ e1 &&& k.PTE_W ≠ 0 ∧ e1 &&& k.PTE_R ≠ 0 ∧
        e1 &&& k.PTE_U ≠ 0 ∧ e1 &&& k.PTE_C = 0) ∧
      (∀ j, j ≠ c → s1.procs j = s.procs j) ∧
      ∀ fuel2 sepc2, ∃ s2,
        handle_user_page_fault k fuel2 k.CAUSE_STORE_PAGE_FAULT sepc2 stval s1 = .ok s2 ∧
        s2.procs = s1.procs ∧ s2.free_pages = s1.free_pages ∧ s2.mem = s1.mem := by
  have hinit : cow_inv k s c par V pa_sh s.free_pages (s.procs par).user_heap.heap_bottom
      (sprint s (diag.handle_page_fault stval)) [] :=
    { cur := hcur
      parent := hparent
      others := fun _ _ => rfl
      split := rfl
      frame := fun _ _ => rfl
      table := fun _ _ => rfl
      done := fun h => absurd hbot (by omega) }
  obtain ⟨s1, used1, hb1, hscan, hhb1, inv⟩ :=
    cow_scan_inv k hk s c par V pa_sh e (s.procs par).user_heap.heap_top s.free_pages hne rfl
      htopw hVal hent heV hpa hpa0 hpaw hshare hsrc hfl_nz hfl_al hfl_nd hfl_dis fuel
      (s.procs par).user_heap.heap_bottom (sprint s (diag.handle_page_fault stval)) []
      hbot_al hinit halloc hfuel
  obtain ⟨p, hpu, hentp, hmem⟩ := inv.done (by omega)
  have hpfl : p ∈ s.free_pages := by
    rw [inv.split]
    simp [hpu]
  obtain ⟨hpte, hV, hR, hW, hU, hC⟩ := rw_entry_spec k hk p (hfl_al p hpfl) (hfl_lt p hpfl)
  refine ⟨s1, p, ?_, ⟨⟨used1, inv.split, hpu⟩, hpfl, ?_, hfl_nz p hpfl, ?_, ?_⟩, hmem,
    ⟨inv.others par hne, ?_⟩,
    ⟨_, hentp, hV, hW, hR, hU, hC⟩, inv.others, ?_⟩
  · simp only [handle_user_page_fault, sprint_current, sprint_procs, hcur, if_true, page_walk,
      hstval, hent, Option.isSome_some, pte_read, Option.getD_some, heC, ne_eq,
      not_false_eq_true, hparent, hpa]
    exact hscan
  · intro hin
    have hnd := hfl_nd
    rw [inv.split] at hnd
    exact (List.nodup_append.1 hnd).2.2 hpu hin
  · intro h
    have := hfl_dis p hpfl V
    rw [hshare, h] at this
    exact this ⟨le_refl _, by simp only [PGSIZE]; omega⟩
  · rw [lookup_pa_aligned k _ V _ hVal hentp hV]
    exact hpte
  · intro va
    apply inv.frame
    intro q hq
    exact hfl_dis q (by rw [inv.split]; simp [hq]) va
  · intro fuel2 sepc2
    have hentp2 : (s1.procs c).pagetable (stval / PGSIZE) = some (rw_entry k p) := by
      rw [hstval]
      exact hentp
    exact ⟨_, store_fault_private_eq k fuel2 sepc2 stval s1 c _ inv.cur hentp2 hC,
      rfl, rfl, rfl⟩

/-- Every translation of `pt_shared` lies below `0x80003000`. -/
theorem lookup_pa_pt_shared_lt (va : Nat) : lookup_pa rv64 pt_shared va < 0x80003000 := by
  have hoff : va % PGSIZE < 4096 := Nat.mod_lt _ (by decide)
  have h1 : PTE2PA 0x20000513 = 0x80001000 := by decide
  have h2 : PTE2PA 0x20000913 = 0x80002000 := by decide
  unfold lookup_pa pt_shared
  by_cases ha : va / PGSIZE = 0x400
  · rw [if_pos ha]
    simp only []
    rw [if_pos (by decide), h1]
    omega
  · rw [if_neg ha]
    by_cases hb : va / PGSIZE = 0x401
    · rw [if_pos hb]
      simp only []
      rw [if_pos (by decide), h2]
      omega
    · rw [if_neg hb]
      simp

/-- The same at a concrete fault: the child (process 1) stores to `0x400008`, a heap
page it shares copy-on-write with its parent (process 0) in the physical page
`0x80001000`, and the allocator holds the page `0x80400000`. Afterwards the
child's page `0x400000` translates to `0x80400000`, the free list is empty,
the new page holds the bytes of the shared page, and the parent is
unchanged. -/
theorem cow_fault_privatizes_page_witness :
    ∃ s1, handle_user_page_fault rv64 3 0xf 0x20000 0x400008 (st_cow [0x80400000]) = .ok s1 ∧
      lookup_pa rv64 (s1.procs 1).pagetable 0x400000 = 0x80400000 ∧
      s1.free_pages = [] ∧
      (∀ i, i < PGSIZE → s1.mem (0x80400000 + i) = (0x80001000 + i) % 251) ∧
      s1.procs 0 = (st_cow [0x80400000]).procs 0 := by
  obtain ⟨s1, p, h, ⟨⟨used, hsplit, hpu⟩, hp, _, _, _, hl⟩, hb, ⟨hc, _⟩, _, _, _⟩ :=
    cow_fault_privatizes_page rv64 rv64_ok 3 0x20000 0x400008 (st_cow [0x80400000])
      1 0 0x400000 0x80001000 0x20000513
      rfl rfl (by decide) (by decide) (by decide) (by decide) (by decide) (by decide)
      (by decide) rfl (by decide) (by decide) (by decide) (by decide) (by decide) (by decide)
      (by
        intro va h1 _
        have hc : ((st_cow [0x80400000]).procs 1).pagetable = pt_shared := rfl
        have hp : ((st_cow [0x80400000]).procs 0).pagetable = pt_shared := rfl
        rw [hc] at h1
        rw [hp]
        omega)
      (by decide) (by decide) (by decide) (by decide)
      (by
        intro q hq va
        have hq1 : q = 0x80400000 := by simpa [st_cow] using hq
        have := lookup_pa_pt_shared_lt va
        have hpt : ((st_cow [0x80400000]).procs 0).pagetable = pt_shared := rfl
        rw [hpt, hq1]
        omega)
      (by decide) (by decide)
  have hp1 : p = 0x80400000 := by simpa [st_cow] using hp
  subst hp1
  refine ⟨s1, h, hl, ?_, hb, hc⟩
  have hsplit1 : [0x80400000] = used ++ s1.free_pages := hsplit
  cases used with
  | nil => simp at hpu
  | cons a u =>
    simp only [List.cons_append, List.cons.injEq] at hsplit1
    have := hsplit1.2.symm
    simp only [List.append_eq_nil] at this
    exact this.2

/-- C4, the handler at a fault for which `alloc_page` fails: the child
(process 1) stores to `0x400008`, its entry for the page `0x400000` is valid
and copy-on-write, both processes map the page to `0x80001000`, and the free
list is empty. The handler does not check the null pointer that `alloc_page`
returns (line 73): it maps the child's page to the physical address 0 (the
entry is `0x17`) and stops in the `memcpy` of line 77, which dereferences the
null pointer. No page was allocated and none was copied. -/
theorem cow_fault_alloc_failure :
    ∃ t, handle_user_page_fault rv64 3 0xf 0x20000 0x400008 (st_cow []) =
        .error (.null_deref t) ∧
      ((st_cow []).procs 1).pagetable 0x400 = some 0x20000513 ∧
      0x20000513 &&& rv64.PTE_C ≠ 0 ∧ 0x20000513 &&& rv64.PTE_V ≠ 0 ∧
      lookup_pa rv64 ((st_cow []).procs 1).pagetable 0x400000 = 0x80001000 ∧
      lookup_pa rv64 ((st_cow []).procs 0).pagetable 0x400000 = 0x80001000 ∧
      (st_cow []).free_pages = [] ∧
      (t.procs 1).pagetable 0x400 = some 0x17 ∧
      lookup_pa rv64 (t.procs 1).pagetable 0x400000 = 0 ∧
      t.free_pages = [] ∧
      t.mem 0x0 = (st_cow []).mem 0x0 := by
  refine ⟨_, rfl, rfl, by decide, by decide, by decide, by decide, rfl, by decide, by decide,
    rfl, rfl⟩

/-! ## Page faults: the entry written back at line 75 -/

/-- Subtracting a single bit from the all-ones word clears that bit. -/
theorem word_sub_bit (v : Nat) (hv : v < 64) : WORD - 1 - 2 ^ v = (2 ^ 64 - 1) ^^^ 2 ^ v := by
  simp only [WORD]
  interval_cases v <;> rfl

/-- An entry whose valid bit was cleared by the unmap has the valid bit clear. -/
theorem unmapped_entry_invalid (k : kconsts) (v e : Nat) (hv : v < 64) (hV : k.PTE_V = 2 ^ v) :
    (e &&& (WORD - 1 - k.PTE_V)) &&& k.PTE_V = 0 := by
  have h1 : (2 ^ 64 - 1).testBit v = true := by
    rw [Nat.testBit_two_pow_sub_one]
    simp [hv]
  rw [hV, word_sub_bit v hv, and_two_pow_eq_zero, Nat.testBit_and, Nat.testBit_xor, h1,
    Nat.testBit_two_pow]
  simp

/-- The bits of `PTE_W | PTE_R`: write and read are set, every other single
bit is clear. -/
theorem write_read_bits (r w : Nat) :
    (2 ^ w ||| 2 ^ r) &&& 2 ^ r = 2 ^ r ∧ (2 ^ w ||| 2 ^ r) &&& 2 ^ w = 2 ^ w ∧
    ∀ i, i ≠ r → i ≠ w → (2 ^ w ||| 2 ^ r) &&& 2 ^ i = 0 := by
  refine ⟨or_and_right_self _ _, or_and_left_self _ _, fun i hir hiw => ?_⟩
  rw [and_two_pow_eq_zero]
  simp [Nat.testBit_or, Nat.testBit_two_pow, Ne.symm hir, Ne.symm hiw]

end PKE
